import Mathlib

/-!
Verification of the Responses-protocol emulation layer of the
openrouter-free-stealth gateway (src/src/api/responses.rs), as a shallow
embedding in Lean 4.

Modelling conventions:
* `serde_json::Value` is embedded as the inductive `Json` below; objects are
  association lists in insertion order, numbers are `Int` (no claim touches
  float arithmetic; numbers are only cloned, compared and counted).
* Process-wide id minting (`next_id`, which combines wall-clock time with a
  global atomic counter) is abstracted: freshly minted ids are taken from an
  explicit counter threaded through the state, and `now_epoch()` is an
  explicit `Int` parameter.  No claim depends on the concrete id text.
* The streaming translator task is embedded as a pure state machine: the
  bounded mpsc channel preserves order and never drops events, so the
  observable behaviour is the ordered list of event payloads produced by the
  producer.  Each `json!` literal sent by the code is transcribed verbatim.
* Fallible operations (JSON parsing upstream, byte slicing) return `Option`.
-/

/-- Embedding of `serde_json::Value`.  Objects keep insertion order. -/
inductive Json where
  | null
  | bool (b : Bool)
  | num (n : Int)
  | str (s : String)
  | arr (xs : List Json)
  | obj (kvs : List (String × Json))

namespace Json

/-- `v.get(key)` on an object; `None` on anything else. -/
def getField : Json → String → Option Json
  | obj kvs, k => kvs.lookup k
  | _, _ => none

/-- `Value::as_str`. -/
def asStr : Json → Option String
  | str s => some s
  | _ => none

/-- `Value::as_u64` restricted to the nonnegative integers of our model. -/
def asNat : Json → Option Nat
  | num n => if 0 ≤ n then some n.toNat else none
  | _ => none

/-- `Value::as_bool`. -/
def asBool : Json → Option Bool
  | bool b => some b
  | _ => none

/-- `Value::as_array`. -/
def asArr : Json → Option (List Json)
  | arr xs => some xs
  | _ => none

/-- `obj[key] = v`: overwrite in place if the key exists, else append.
(serde_json stores objects in a map; insertion order is immaterial to every
claim, which only ever compares key sets or looks fields up.) -/
def setField : Json → String → Json → Json
  | obj kvs, k, v =>
      if (kvs.lookup k).isSome then
        obj (kvs.map fun kv => if kv.1 = k then (k, v) else kv)
      else
        obj (kvs ++ [(k, v)])
  | j, _, _ => j

/-- Top-level key list of an object (empty for non-objects). -/
def keys : Json → List String
  | obj kvs => kvs.map Prod.fst
  | _ => []

end Json

/-!  ## Request Translator (`translate_request`, responses.rs lines 42-152) -/

/-- `TranslatedRequest` (responses.rs lines 29-40). -/
structure TranslatedRequest where
  cc_body : Json
  resp_id : String
  model : String
  tools_echo : Json
  instructions : Json
  temperature : Json
  top_p : Json
  tool_choice : Json
  parallel_tool_calls : Json
  is_stream : Bool

/-- `translate_tool_choice` (responses.rs lines 228-247). -/
def translate_tool_choice (v : Json) : Json :=
  match v with
  | Json.str s => Json.str s
  | Json.obj kvs =>
      let tc_type := (((Json.obj kvs).getField "type").bind Json.asStr).getD ""
      if tc_type = "function" then
        Json.obj [("type", Json.str "function"),
          ("function", Json.obj [("name", ((Json.obj kvs).getField "name").getD Json.null)])]
      else
        Json.obj kvs
  | _ => Json.str "auto"

/-- One content part of a `"message"` input item (responses.rs lines 169-195). -/
def translate_content_part (part : Json) : Option Json :=
  let ptype := ((part.getField "type").bind Json.asStr).getD ""
  match ptype with
  | "input_text" =>
      some (Json.obj [("type", Json.str "text"),
                      ("text", (part.getField "text").getD Json.null)])
  | "input_image" =>
      match (part.getField "image_url").bind Json.asStr with
      | some url =>
          some (Json.obj [("type", Json.str "image_url"),
                          ("image_url", Json.obj [("url", Json.str url)])])
      | none => none
  | _ =>
      match part.getField "text" with
      | some text => some (Json.obj [("type", Json.str "text"), ("text", text)])
      | none => none

/-- `translate_input_item` (responses.rs lines 154-226): the messages the item
appends (the Rust signature pushes onto a `&mut Vec`). -/
def translate_input_item (item : Json) : List Json :=
  let item_type := ((item.getField "type").bind Json.asStr).getD ""
  match item_type with
  | "message" =>
      let role := ((item.getField "role").bind Json.asStr).getD "user"
      let cc_role := if role = "developer" then "system" else role
      match item.getField "content" with
      | some (Json.arr content_parts) =>
          let cc_content := content_parts.filterMap translate_content_part
          if h : cc_content.length = 1 then
            let only := cc_content.get ⟨0, by omega⟩
            if (only.getField "type").bind Json.asStr = some "text" then
              [Json.obj [("role", Json.str cc_role),
                         ("content", (only.getField "text").getD Json.null)]]
            else
              [Json.obj [("role", Json.str cc_role), ("content", Json.arr cc_content)]]
          else
            [Json.obj [("role", Json.str cc_role), ("content", Json.arr cc_content)]]
      | some (Json.str text) =>
          [Json.obj [("role", Json.str cc_role), ("content", Json.str text)]]
      | _ => []
  | "function_call_output" =>
      [Json.obj [("role", Json.str "tool"),
                 ("tool_call_id", (item.getField "call_id").getD Json.null),
                 ("content", (item.getField "output").getD (Json.str ""))]]
  | "" =>
      match (item.getField "role").bind Json.asStr with
      | some role =>
          let cc_role := if role = "developer" then "system" else role
          [Json.obj [("role", Json.str cc_role),
                     ("content", (item.getField "content").getD Json.null)]]
      | none => []
  | _ => []

/-- One declared tool of the inbound request (responses.rs lines 71-84). -/
def translate_tool (tool : Json) : Option Json :=
  let tool_type := ((tool.getField "type").bind Json.asStr).getD ""
  if tool_type = "function" then
    some (Json.obj [("type", Json.str "function"),
      ("function", Json.obj
        [("name", (tool.getField "name").getD Json.null),
         ("description", (tool.getField "description").getD Json.null),
         ("parameters", (tool.getField "parameters").getD (Json.obj [])),
         ("strict", (tool.getField "strict").getD Json.null)])])
  else
    none

/-- The `text.format` → `response_format` step (responses.rs lines 111-131). -/
def apply_text_format (body cc : Json) : Json :=
  match body.getField "text" with
  | some v =>
      match v.getField "format" with
      | some fmt =>
          let fmt_type := ((fmt.getField "type").bind Json.asStr).getD "text"
          if fmt_type = "json_object" then
            cc.setField "response_format" (Json.obj [("type", Json.str "json_object")])
          else if fmt_type = "json_schema" then
            cc.setField "response_format" (Json.obj [("type", Json.str "json_schema"),
              ("json_schema", Json.obj
                [("name", (fmt.getField "name").getD (Json.str "response")),
                 ("schema", (fmt.getField "schema").getD (Json.obj [])),
                 ("strict", (fmt.getField "strict").getD (Json.bool true))])])
          else cc
      | none => cc
  | none => cc

/-- `translate_request` (responses.rs lines 42-152).  `resp_id` stands for the
freshly minted `next_id("resp")`. -/
def translate_request (body : Json) (resp_id : String) :
    Except String TranslatedRequest :=
  match (body.getField "model").bind Json.asStr with
  | none => Except.error "missing `model`"
  | some model =>
    let is_stream := ((body.getField "stream").bind Json.asBool).getD false
    let messages₀ : List Json :=
      match (body.getField "instructions").bind Json.asStr with
      | some instr => [Json.obj [("role", Json.str "developer"), ("content", Json.str instr)]]
      | none => []
    let messages : List Json :=
      match body.getField "input" with
      | some (Json.str s) =>
          messages₀ ++ [Json.obj [("role", Json.str "user"), ("content", Json.str s)]]
      | some (Json.arr items) => messages₀ ++ items.flatMap translate_input_item
      | _ => messages₀
    let cc_tools : List Json :=
      match body.getField "tools" with
      | some (Json.arr tools) => tools.filterMap translate_tool
      | _ => []
    let cc := Json.obj [("model", Json.str model), ("messages", Json.arr messages)]
    let cc := if cc_tools.isEmpty then cc else cc.setField "tools" (Json.arr cc_tools)
    let cc := match body.getField "temperature" with
      | some v => cc.setField "temperature" v | none => cc
    let cc := match body.getField "top_p" with
      | some v => cc.setField "top_p" v | none => cc
    let cc := match body.getField "max_output_tokens" with
      | some v => cc.setField "max_tokens" v | none => cc
    let cc := match body.getField "tool_choice" with
      | some v => cc.setField "tool_choice" (translate_tool_choice v) | none => cc
    let cc := match body.getField "parallel_tool_calls" with
      | some v => cc.setField "parallel_tool_calls" v | none => cc
    let cc := apply_text_format body cc
    let cc := if is_stream then cc.setField "stream" (Json.bool true) else cc
    Except.ok
      { cc_body := cc
        resp_id := resp_id
        model := model
        tools_echo := (body.getField "tools").getD (Json.arr [])
        instructions := (body.getField "instructions").getD Json.null
        temperature := (body.getField "temperature").getD (Json.num 1)
        top_p := (body.getField "top_p").getD (Json.num 1)
        tool_choice := (body.getField "tool_choice").getD (Json.str "auto")
        parallel_tool_calls := (body.getField "parallel_tool_calls").getD (Json.bool true)
        is_stream := is_stream }

/-!  ## Non-Stream Response Translator (`translate_response`, lines 249-351)

`next_id` is modelled by an explicit counter `ctr`; minted ids are
`fc_<n>` / `msg_<n>`.  `now_epoch()` is the parameter `created_at`. -/

/-- A fresh id with the given prefix letter group, from the counter. -/
def mintId (p : String) (n : Nat) : String := p ++ "_" ++ toString n

/-- One upstream `choices` entry (responses.rs lines 259-298): returns the
advanced id counter and the output items this choice contributes. -/
def translate_choice (choice : Json) (ctr : Nat) : Nat × List Json :=
  match choice.getField "message" with
  | none => (ctr, [])
  | some msg =>
    let tcStep :=
      match msg.getField "tool_calls" with
      | some (Json.arr tool_calls) =>
          tool_calls.foldl (fun (p : Nat × List Json) tc =>
            let func := (tc.getField "function").getD (Json.obj [])
            let item := Json.obj
              [("id", Json.str (mintId "fc" p.1)),
               ("type", Json.str "function_call"),
               ("status", Json.str "completed"),
               ("call_id", (tc.getField "id").getD Json.null),
               ("name", (func.getField "name").getD Json.null),
               ("arguments", (func.getField "arguments").getD (Json.str ""))]
            (p.1 + 1, p.2 ++ [item])) (ctr, [])
      | _ => (ctr, [])
    match (msg.getField "content").bind Json.asStr with
    | some content =>
        if content ≠ "" then
          let item := Json.obj
            [("id", Json.str (mintId "msg" tcStep.1)),
             ("type", Json.str "message"),
             ("role", Json.str "assistant"),
             ("status", Json.str "completed"),
             ("content", Json.arr [Json.obj
               [("type", Json.str "output_text"),
                ("text", Json.str content),
                ("annotations", Json.arr [])]])]
          (tcStep.1 + 1, tcStep.2 ++ [item])
        else tcStep
    | none => tcStep

/-- The `usage` remapping of `translate_response` (lines 301-310). -/
def translate_usage (cc_resp : Json) : Json :=
  match cc_resp.getField "usage" with
  | some u =>
      Json.obj
        [("input_tokens", (u.getField "prompt_tokens").getD (Json.num 0)),
         ("output_tokens", (u.getField "completion_tokens").getD (Json.num 0)),
         ("output_tokens_details", Json.obj [("reasoning_tokens", Json.num 0)]),
         ("total_tokens", (u.getField "total_tokens").getD (Json.num 0))]
  | none => Json.null

/-- `translate_response` (responses.rs lines 249-351). -/
def translate_response (cc_resp : Json) (req : TranslatedRequest)
    (created_at : Int) (ctr : Nat) : Json :=
  let cc_model := ((cc_resp.getField "model").bind Json.asStr).getD req.model
  let output : List Json :=
    match cc_resp.getField "choices" with
    | some (Json.arr choices) =>
        (choices.foldl (fun (p : Nat × List Json) choice =>
          let q := translate_choice choice p.1
          (q.1, p.2 ++ q.2)) (ctr, [])).2
    | _ => []
  let usage := translate_usage cc_resp
  let finish_reason :=
    (((cc_resp.getField "choices").bind Json.asArr).bind (fun cs =>
      (cs.head?.bind (fun c => c.getField "finish_reason")).bind Json.asStr)).getD "stop"
  let status := if finish_reason = "length" then "incomplete" else "completed"
  let incomplete_details :=
    if finish_reason = "length" then Json.obj [("reason", Json.str "max_output_tokens")]
    else Json.null
  Json.obj
    [("id", Json.str req.resp_id),
     ("object", Json.str "response"),
     ("created_at", Json.num created_at),
     ("status", Json.str status),
     ("completed_at", Json.num created_at),
     ("error", Json.null),
     ("incomplete_details", incomplete_details),
     ("instructions", req.instructions),
     ("model", Json.str cc_model),
     ("output", Json.arr output),
     ("parallel_tool_calls", req.parallel_tool_calls),
     ("previous_response_id", Json.null),
     ("temperature", req.temperature),
     ("text", Json.obj [("format", Json.obj [("type", Json.str "text")])]),
     ("tool_choice", req.tool_choice),
     ("tools", req.tools_echo),
     ("top_p", req.top_p),
     ("truncation", Json.str "disabled"),
     ("usage", usage),
     ("metadata", Json.obj [])]

/-!  ## Streaming Translator (`stream_response`, lines 353-788)

The spawned producer task is embedded as a pure state machine over the list
of successfully parsed upstream payloads.  The mpsc channel preserves order
and never drops, so the observable behaviour is the ordered list of event
payloads; each `json!` literal sent through `send!` is transcribed below as
a named constructor. -/

/-- `ToolCallAcc` (responses.rs lines 790-796). -/
structure ToolCallAcc where
  id : String
  item_id : String
  name : String
  arguments : String
  announced : Bool
deriving DecidableEq

/-- The mutable locals of the producer task (responses.rs lines 361-370).
`counter` models the process-wide `next_id` counter for `fc_` ids. -/
structure StreamSt where
  seq : Nat
  counter : Nat
  full_text : String
  tool_calls : List (Nat × ToolCallAcc)
  text_content_started : Bool
  finish_reason : String
  input_tokens : Nat
  output_tokens : Nat
  total_tokens : Nat

/-- Sorted-by-key insertion/replacement: `BTreeMap::entry` + in-place store. -/
def insertTc : List (Nat × ToolCallAcc) → Nat → ToolCallAcc → List (Nat × ToolCallAcc)
  | [], k, a => [(k, a)]
  | (k', a') :: rest, k, a =>
      if k < k' then (k, a) :: (k', a') :: rest
      else if k = k' then (k, a) :: rest
      else (k', a') :: insertTc rest k a

/-- Event of lines 410-421 (message item announced at output index 0). -/
def msg_added_event (msg_id : String) (seq : Nat) : Json :=
  Json.obj
    [("type", Json.str "response.output_item.added"),
     ("output_index", Json.num 0),
     ("item", Json.obj
       [("id", Json.str msg_id), ("type", Json.str "message"),
        ("role", Json.str "assistant"), ("status", Json.str "in_progress"),
        ("content", Json.arr [])]),
     ("sequence_number", Json.num seq)]

/-- Event of lines 426-438 (empty text part added). -/
def content_part_added_event (msg_id : String) (seq : Nat) : Json :=
  Json.obj
    [("type", Json.str "response.content_part.added"),
     ("item_id", Json.str msg_id),
     ("output_index", Json.num 0),
     ("content_index", Json.num 0),
     ("part", Json.obj
       [("type", Json.str "output_text"), ("text", Json.str ""),
        ("annotations", Json.arr [])]),
     ("sequence_number", Json.num seq)]

/-- Event of lines 509-517 (one raw text fragment). -/
def output_text_delta_event (msg_id content : String) (seq : Nat) : Json :=
  Json.obj
    [("type", Json.str "response.output_text.delta"),
     ("item_id", Json.str msg_id),
     ("output_index", Json.num 0),
     ("content_index", Json.num 0),
     ("delta", Json.str content),
     ("sequence_number", Json.num seq)]

/-- Event of lines 555-568 and 673-686 (function-call item announced). -/
def fc_added_event (item_id call_id name : String) (output_idx seq : Nat) : Json :=
  Json.obj
    [("type", Json.str "response.output_item.added"),
     ("output_index", Json.num output_idx),
     ("item", Json.obj
       [("id", Json.str item_id), ("type", Json.str "function_call"),
        ("status", Json.str "in_progress"), ("call_id", Json.str call_id),
        ("name", Json.str name), ("arguments", Json.str "")]),
     ("sequence_number", Json.num seq)]

/-- Event of lines 575-582 (one argument fragment). -/
def fc_args_delta_event (item_id args : String) (output_idx seq : Nat) : Json :=
  Json.obj
    [("type", Json.str "response.function_call_arguments.delta"),
     ("item_id", Json.str item_id),
     ("output_index", Json.num output_idx),
     ("delta", Json.str args),
     ("sequence_number", Json.num seq)]

/-- Event of lines 594-602. -/
def output_text_done_event (msg_id text : String) (seq : Nat) : Json :=
  Json.obj
    [("type", Json.str "response.output_text.done"),
     ("item_id", Json.str msg_id),
     ("output_index", Json.num 0),
     ("content_index", Json.num 0),
     ("text", Json.str text),
     ("sequence_number", Json.num seq)]

/-- Event of lines 605-617 and 622-634. -/
def content_part_done_event (msg_id text : String) (seq : Nat) : Json :=
  Json.obj
    [("type", Json.str "response.content_part.done"),
     ("item_id", Json.str msg_id),
     ("output_index", Json.num 0),
     ("content_index", Json.num 0),
     ("part", Json.obj
       [("type", Json.str "output_text"), ("text", Json.str text),
        ("annotations", Json.arr [])]),
     ("sequence_number", Json.num seq)]

/-- The finalized message output item (lines 648-658). -/
def message_item (msg_id status text : String) : Json :=
  Json.obj
    [("id", Json.str msg_id), ("type", Json.str "message"),
     ("role", Json.str "assistant"), ("status", Json.str status),
     ("content", Json.arr [Json.obj
       [("type", Json.str "output_text"), ("text", Json.str text),
        ("annotations", Json.arr [])]])]

/-- Event of lines 659-664 and 710-715. -/
def output_item_done_event (output_idx : Nat) (item : Json) (seq : Nat) : Json :=
  Json.obj
    [("type", Json.str "response.output_item.done"),
     ("output_index", Json.num output_idx),
     ("item", item),
     ("sequence_number", Json.num seq)]

/-- Event of lines 691-698. -/
def fc_args_done_event (item_id name args : String) (output_idx seq : Nat) : Json :=
  Json.obj
    [("type", Json.str "response.function_call_arguments.done"),
     ("item_id", Json.str item_id),
     ("output_index", Json.num output_idx),
     ("name", Json.str name),
     ("arguments", Json.str args),
     ("sequence_number", Json.num seq)]

/-- The finalized function-call output item (lines 702-709). -/
def function_call_item (acc : ToolCallAcc) : Json :=
  Json.obj
    [("id", Json.str acc.item_id), ("type", Json.str "function_call"),
     ("status", Json.str "completed"), ("call_id", Json.str acc.id),
     ("name", Json.str acc.name), ("arguments", Json.str acc.arguments)]

/-- The streaming usage object (lines 731-736): always an object. -/
def usage_json (i o t : Nat) : Json :=
  Json.obj
    [("input_tokens", Json.num i),
     ("output_tokens", Json.num o),
     ("output_tokens_details", Json.obj [("reasoning_tokens", Json.num 0)]),
     ("total_tokens", Json.num t)]

/-- The synthesized terminal response object (lines 745-766). -/
def final_response_json (req : TranslatedRequest) (resp_status : String)
    (incomplete_details : Json) (output : List Json) (usage : Json)
    (completed_at : Int) : Json :=
  Json.obj
    [("id", Json.str req.resp_id),
     ("object", Json.str "response"),
     ("created_at", Json.num completed_at),
     ("status", Json.str resp_status),
     ("completed_at", Json.num completed_at),
     ("error", Json.null),
     ("incomplete_details", incomplete_details),
     ("instructions", req.instructions),
     ("model", Json.str req.model),
     ("output", Json.arr output),
     ("parallel_tool_calls", req.parallel_tool_calls),
     ("previous_response_id", Json.null),
     ("temperature", req.temperature),
     ("text", Json.obj [("format", Json.obj [("type", Json.str "text")])]),
     ("tool_choice", req.tool_choice),
     ("tools", req.tools_echo),
     ("top_p", req.top_p),
     ("truncation", Json.str "disabled"),
     ("usage", usage),
     ("metadata", Json.obj [])]

/-- The terminal event wrapper (lines 768-772). -/
def terminal_event (ftype : String) (response : Json) (seq : Nat) : Json :=
  Json.obj
    [("type", Json.str ftype),
     ("response", response),
     ("sequence_number", Json.num seq)]

/-- The empty-output response snapshot inside `response_envelope`
(responses.rs lines 809-831). -/
def envelope_response (resp_id model : String) (req : TranslatedRequest)
    (status : String) (usage incomplete_details : Json) (now : Int) : Json :=
  Json.obj
    [("id", Json.str resp_id),
     ("object", Json.str "response"),
     ("created_at", Json.num now),
     ("status", Json.str status),
     ("completed_at", Json.null),
     ("error", Json.null),
     ("incomplete_details", incomplete_details),
     ("instructions", req.instructions),
     ("max_output_tokens", Json.null),
     ("model", Json.str model),
     ("output", Json.arr []),
     ("parallel_tool_calls", req.parallel_tool_calls),
     ("previous_response_id", Json.null),
     ("temperature", req.temperature),
     ("text", Json.obj [("format", Json.obj [("type", Json.str "text")])]),
     ("tool_choice", req.tool_choice),
     ("tools", req.tools_echo),
     ("top_p", req.top_p),
     ("truncation", Json.str "disabled"),
     ("usage", usage),
     ("metadata", Json.obj [])]

/-- `response_envelope` (responses.rs lines 798-838): increments the shared
sequence counter and wraps an empty-output snapshot of the response. -/
def response_envelope (event_type resp_id model : String) (req : TranslatedRequest)
    (status : String) (usage incomplete_details : Json) (now : Int)
    (seq : Nat) : Nat × Json :=
  let seq := seq + 1
  (seq, Json.obj
    [("type", Json.str event_type),
     ("response", envelope_response resp_id model req status usage incomplete_details now),
     ("sequence_number", Json.num seq)])

/-- Order-preserving event-emitting fold: the shape of every `for` loop of the
producer task (events of earlier iterations are sent first). -/
def emitFold (f : StreamSt → α → StreamSt × List Json) :
    StreamSt → List α → StreamSt × List Json
  | st, [] => (st, [])
  | st, x :: rest =>
      let p := f st x
      let q := emitFold f p.1 rest
      (q.1, p.2 ++ q.2)

/-- The tool-call delta's `index`, defaulting to 0 (responses.rs lines 524-525). -/
def tcIdx (tc : Json) : Nat := ((tc.getField "index").bind Json.asNat).getD 0

/-- `tool_calls.entry(idx).or_insert_with(...)` (responses.rs lines 527-538):
the current accumulator for the index (created fresh on first sight, minting
an `fc_` item id) and the advanced mint counter. -/
def tcEntry (st : StreamSt) (tc : Json) : ToolCallAcc × Nat :=
  match st.tool_calls.lookup (tcIdx tc) with
  | some a => (a, st.counter)
  | none =>
      (({ id := ((tc.getField "id").bind Json.asStr).getD ""
          item_id := mintId "fc" st.counter
          name := ""
          arguments := ""
          announced := false } : ToolCallAcc), st.counter + 1)

/-- A non-empty `id` fragment (re)assigns the call id (lines 540-544). -/
def tcApplyId (tc : Json) (acc : ToolCallAcc) : ToolCallAcc :=
  match (tc.getField "id").bind Json.asStr with
  | some i => if i = "" then acc else { acc with id := i }
  | none => acc

/-- A `name` fragment is appended to the accumulated name (lines 546-549). -/
def tcApplyName (f : Json) (acc : ToolCallAcc) : ToolCallAcc :=
  match (f.getField "name").bind Json.asStr with
  | some n => { acc with name := acc.name ++ n }
  | none => acc

/-- One entry of `delta.tool_calls` (responses.rs lines 523-586). -/
def process_tool_call_delta (st : StreamSt) (tc : Json) : StreamSt × List Json :=
  let idx := tcIdx tc
  let entry := tcEntry st tc
  let acc := tcApplyId tc entry.1
  let counter := entry.2
  match tc.getField "function" with
  | none =>
      ({ st with counter := counter, tool_calls := insertTc st.tool_calls idx acc }, [])
  | some f =>
      let acc := tcApplyName f acc
      match (f.getField "arguments").bind Json.asStr with
      | none =>
          ({ st with counter := counter, tool_calls := insertTc st.tool_calls idx acc }, [])
      | some args =>
          let announce :=
            if acc.announced = false ∧ acc.name ≠ "" then
              (st.seq + 1, [fc_added_event acc.item_id acc.id acc.name (idx + 1) (st.seq + 1)],
               { acc with announced := true })
            else (st.seq, [], acc)
          let seq₁ := announce.1
          let acc := announce.2.2
          let acc := { acc with arguments := acc.arguments ++ args }
          ({ st with
             seq := seq₁ + 1
             counter := counter
             tool_calls := insertTc st.tool_calls idx acc },
           announce.2.1 ++ [fc_args_delta_event acc.item_id args (idx + 1) (seq₁ + 1)])

/-- One entry of the upstream `choices` array (responses.rs lines 496-588). -/
def process_choice (msg_id : String) (st : StreamSt) (choice : Json) :
    StreamSt × List Json :=
  let st :=
    match (choice.getField "finish_reason").bind Json.asStr with
    | some fr => { st with finish_reason := fr }
    | none => st
  match choice.getField "delta" with
  | none => (st, [])
  | some delta =>
      let textStep : StreamSt × List Json :=
        match (delta.getField "content").bind Json.asStr with
        | some content =>
            if content ≠ "" then
              ({ st with full_text := st.full_text ++ content, seq := st.seq + 1 },
               [output_text_delta_event msg_id content (st.seq + 1)])
            else (st, [])
        | none => (st, [])
      match delta.getField "tool_calls" with
      | some (Json.arr tcs) =>
          let q := emitFold process_tool_call_delta textStep.1 tcs
          (q.1, textStep.2 ++ q.2)
      | _ => textStep

/-- One parsed upstream payload (responses.rs lines 476-589): the usage
overwrite, then the choices loop. -/
def process_payload (msg_id : String) (st : StreamSt) (parsed : Json) :
    StreamSt × List Json :=
  let st :=
    match parsed.getField "usage" with
    | some u =>
        { st with
          input_tokens := ((u.getField "prompt_tokens").bind Json.asNat).getD st.input_tokens
          output_tokens := ((u.getField "completion_tokens").bind Json.asNat).getD st.output_tokens
          total_tokens := ((u.getField "total_tokens").bind Json.asNat).getD st.total_tokens }
    | none => st
  match (parsed.getField "choices").bind Json.asArr with
  | none => (st, [])
  | some choices => emitFold (process_choice msg_id) st choices

/-- The task's initial locals (responses.rs lines 361-370). -/
def initialStreamSt : StreamSt :=
  { seq := 0, counter := 0, full_text := "", tool_calls := [],
    text_content_started := false, finish_reason := "stop",
    input_tokens := 0, output_tokens := 0, total_tokens := 0 }

/-- The `Starting` phase (responses.rs lines 380-441): four lifecycle events
before any upstream data is read. -/
def start_events (req : TranslatedRequest) (msg_id : String) (now : Int) :
    StreamSt × List Json :=
  let e1 := response_envelope "response.created" req.resp_id req.model req
    "in_progress" Json.null Json.null now initialStreamSt.seq
  let e2 := response_envelope "response.in_progress" req.resp_id req.model req
    "in_progress" Json.null Json.null now e1.1
  let s3 := e2.1 + 1
  let s4 := s3 + 1
  ({ initialStreamSt with seq := s4, text_content_started := true },
   [e1.2, e2.2, msg_added_event msg_id s3, content_part_added_event msg_id s4])

/-- The per-accumulator drain loop (responses.rs lines 669-718): returns the
advanced sequence counter, the events, and the finalized output items. -/
def drain_tool_calls (seq : Nat) :
    List (Nat × ToolCallAcc) → Nat × List Json × List Json
  | [] => (seq, [], [])
  | (idx, acc) :: rest =>
      let output_idx := idx + 1
      let addStep :=
        if acc.announced then (seq, ([] : List Json))
        else (seq + 1, [fc_added_event acc.item_id acc.id acc.name output_idx (seq + 1)])
      let s₁ := addStep.1 + 1
      let argsDone := fc_args_done_event acc.item_id acc.name acc.arguments output_idx s₁
      let s₂ := s₁ + 1
      let fc_item := function_call_item acc
      let itemDone := output_item_done_event output_idx fc_item s₂
      let q := drain_tool_calls s₂ rest
      (q.1, addStep.2 ++ [argsDone, itemDone] ++ q.2.1, fc_item :: q.2.2)

/-- The `Draining` phase (responses.rs lines 593-773). -/
def drain_events (req : TranslatedRequest) (msg_id : String) (now : Int)
    (st : StreamSt) : List Json :=
  let step1 :=
    if st.full_text ≠ "" ∧ st.text_content_started then
      (st.seq + 2,
       [output_text_done_event msg_id st.full_text (st.seq + 1),
        content_part_done_event msg_id st.full_text (st.seq + 2)])
    else (st.seq, [])
  let step2 :=
    if st.full_text = "" ∧ st.text_content_started ∧ st.tool_calls ≠ [] then
      (step1.1 + 1, [content_part_done_event msg_id "" (step1.1 + 1)])
    else (step1.1, ([] : List Json))
  let msg_status := if st.finish_reason = "length" then "incomplete" else "completed"
  let step3 :=
    if st.full_text ≠ "" ∨ st.tool_calls = [] then
      let msg_item := message_item msg_id msg_status st.full_text
      (step2.1 + 1, [output_item_done_event 0 msg_item (step2.1 + 1)], [msg_item])
    else (step2.1, ([] : List Json), ([] : List Json))
  let step4 := drain_tool_calls step3.1 st.tool_calls
  let final_output := step3.2.2 ++ step4.2.2
  let resp_status := if st.finish_reason = "length" then "incomplete" else "completed"
  let incomplete_details :=
    if st.finish_reason = "length" then Json.obj [("reason", Json.str "max_output_tokens")]
    else Json.null
  let usage := usage_json st.input_tokens st.output_tokens st.total_tokens
  let ftype := if resp_status = "incomplete" then "response.incomplete" else "response.completed"
  let final_response := final_response_json req resp_status incomplete_details
    final_output usage now
  step1.2 ++ step2.2 ++ step3.2.1 ++ step4.2.1 ++
    [terminal_event ftype final_response (step4.1 + 1)]

/-- `stream_response` (responses.rs lines 353-788), observed as the ordered
list of event payloads the producer task sends for one call, given the
successfully parsed upstream payloads in arrival order.  `msg_id` stands for
the minted `next_id("msg")`, `now` for `now_epoch()`. -/
def stream_response (req : TranslatedRequest) (msg_id : String) (now : Int)
    (payloads : List Json) : List Json :=
  let start := start_events req msg_id now
  let opened := emitFold (process_payload msg_id) start.1 payloads
  start.2 ++ opened.2 ++ drain_events req msg_id now opened.1

/-!  ## Observation helpers (statement vocabulary for the claims) -/

/-- The `type` field of an event payload or output item. -/
def typeOf (e : Json) : Option String := (e.getField "type").bind Json.asStr

/-- The `sequence_number` field of an event payload. -/
def seqNumOf (e : Json) : Option Json := e.getField "sequence_number"

/-- Whether an event carries the given `type`. -/
def isType (t : String) (e : Json) : Bool := typeOf e == some t

/-- Whether an event carries the given `output_index`. -/
def outIdxIs (k : Nat) (e : Json) : Bool :=
  match e.getField "output_index" with
  | some (Json.num n) => n == (k : Int)
  | _ => false

/-- The text payload of a `response.function_call_arguments.delta` event. -/
def deltaPayload (e : Json) : String := ((e.getField "delta").bind Json.asStr).getD ""

/-- Concatenation of a list of strings, in order. -/
def strJoin : List String → String
  | [] => ""
  | s :: rest => s ++ strJoin rest

/-- An argument-fragment event addressed to output index `k`. -/
def isFcDeltaAt (k : Nat) (e : Json) : Bool :=
  isType "response.function_call_arguments.delta" e && outIdxIs k e

/-- Concatenation, in stream order, of all argument fragments addressed to
output index `k`. -/
def deltaConcatAt (k : Nat) (evts : List Json) : String :=
  strJoin ((evts.filter (isFcDeltaAt k)).map deltaPayload)

/-- An `output_item.added` event addressed to output index `k`. -/
def isAddedAt (k : Nat) (e : Json) : Bool :=
  isType "response.output_item.added" e && outIdxIs k e

/-- An `output_item.done` event addressed to output index `k`. -/
def isDoneAt (k : Nat) (e : Json) : Bool :=
  isType "response.output_item.done" e && outIdxIs k e

/-- A `function_call_arguments.done` event addressed to output index `k`. -/
def isArgsDoneAt (k : Nat) (e : Json) : Bool :=
  isType "response.function_call_arguments.done" e && outIdxIs k e

/-- The `output` list of the response carried by the last event of the
stream (the terminal event's final output list). -/
def terminalOutput (evts : List Json) : List Json :=
  match evts.getLast? with
  | some e => ((((e.getField "response").bind (fun r => r.getField "output"))).bind Json.asArr).getD []
  | none => []

/-- The response object carried by the last event of the stream. -/
def terminalResponse (evts : List Json) : Option Json :=
  evts.getLast?.bind (fun e => e.getField "response")

/-- The `output_index` an event carries (`-1` when absent or non-numeric). -/
def outIdxVal (e : Json) : Int :=
  match e.getField "output_index" with
  | some (Json.num n) => n
  | _ => -1

/-- An `output_item.done` event for a function-call item (output index ≥ 1). -/
def isFcItemDone (e : Json) : Bool :=
  isType "response.output_item.done" e && decide (1 ≤ outIdxVal e)

/-- The `item` field of an `output_item` lifecycle event. -/
def itemOf (e : Json) : Option Json := e.getField "item"

/-!  ## SSE Frame Parser (responses.rs lines 443-474)

The byte buffer is modelled over `List Char` (the code lossy-decodes each
chunk to UTF-8 text before buffering).  `buffer.find("\n\n")` with the
split at lines 457-459 is `splitFirstSep`; the `while let Some(pos)` loop is
`drainBlocks`; the outer chunk loop is `sse_ingest`. -/

/-- Split a buffer at the first `"\n\n"`: the block before it and the text
after it (`buffer[..pos]` / `buffer[pos+2..]`). -/
def splitFirstSep : List Char → Option (List Char × List Char)
  | [] => none
  | c :: rest =>
      if c = '\n' ∧ rest.head? = some '\n' then some ([], rest.tail)
      else (splitFirstSep rest).map (fun p => (c :: p.1, p.2))

theorem splitFirstSep_length {l pre post : List Char}
    (h : splitFirstSep l = some (pre, post)) : post.length + 2 ≤ l.length := by
  induction l generalizing pre post with
  | nil => simp [splitFirstSep] at h
  | cons c rest ih =>
    rw [splitFirstSep] at h
    split at h
    · rename_i hc
      cases rest with
      | nil => simp at hc
      | cons a r =>
          simp at h
          obtain ⟨_, h2⟩ := h
          subst h2
          simp
    · rcases hr : splitFirstSep rest with _ | p <;> rw [hr] at h <;> simp at h
      obtain ⟨_, h2⟩ := h
      subst h2
      have := ih hr
      simp
      omega

/-- The `while let Some(pos) = buffer.find("\n\n")` loop (lines 457-459):
all complete blocks in order, and the unterminated leftover. -/
def drainBlocks (buf : List Char) : List (List Char) × List Char :=
  match h : splitFirstSep buf with
  | none => ([], buf)
  | some (block, rest) =>
      let q := drainBlocks rest
      (block :: q.1, q.2)
termination_by buf.length
decreasing_by
  have := splitFirstSep_length h
  omega

/-- The outer chunk loop (lines 447-456): each arriving chunk is appended to
the carried-over buffer, then complete blocks are drained. -/
def sse_ingest (buf : List Char) : List (List Char) → List (List Char) × List Char
  | [] => ([], buf)
  | c :: rest =>
      let p := drainBlocks (buf ++ c)
      let q := sse_ingest p.2 rest
      (p.1 ++ q.1, q.2)

/-- Unicode `char::is_whitespace` (the `line.trim()` predicate). -/
def rustIsWhitespace (c : Char) : Bool :=
  c = ' ' || c = '\t' || c = '\n' || c.val = 0x0B || c.val = 0x0C || c = '\r' ||
  c.val = 0x85 || c.val = 0xA0 || c.val = 0x1680 ||
  (0x2000 ≤ c.val && c.val ≤ 0x200A) ||
  c.val = 0x2028 || c.val = 0x2029 || c.val = 0x202F || c.val = 0x205F ||
  c.val = 0x3000

/-- `str::trim`. -/
def rustTrim (l : List Char) : List Char :=
  ((l.dropWhile rustIsWhitespace).reverse.dropWhile rustIsWhitespace).reverse

/-- Strip one trailing carriage return (`str::lines` does this per line). -/
def stripTrailingCR (l : List Char) : List Char :=
  if l.getLast? = some '\r' then l.dropLast else l

/-- `str::lines`: split on `'\n'`, drop a trailing empty line, strip a
trailing `'\r'` from each line. -/
def rustLines (l : List Char) : List (List Char) :=
  let parts := l.splitOn '\n'
  let parts := match parts.getLast? with
    | some [] => parts.dropLast
    | _ => parts
  parts.map stripTrailingCR

/-- `p` is a leading segment of `l`. -/
def leadsWith : List Char → List Char → Bool
  | [], _ => true
  | _ :: _, [] => false
  | p :: ps, c :: cs => p == c && leadsWith ps cs

/-- One line of a block (lines 461-469): trim, demand the `"data: "` marker,
drop the six marker characters, discard the literal `"[DONE]"`. -/
def line_payload (line : List Char) : Option (List Char) :=
  let t := rustTrim line
  if leadsWith ("data: ".toList) t then
    let data := t.drop 6
    if data = "[DONE]".toList then none else some data
  else none

/-- All payloads of one complete event block, in line order. -/
def block_payloads (block : List Char) : List (List Char) :=
  (rustLines block).filterMap line_payload

/-- All payloads an arbitrary chunking of the upstream byte stream yields,
in arrival order. -/
def sse_payloads (chunks : List (List Char)) : List (List Char) :=
  ((sse_ingest [] chunks).1).flatMap block_payloads

/-- One payload string through `serde_json::from_str` (lines 471-474): a
parse failure is skipped silently — no event, no state change, no error.
The parser itself is the external `serde_json` collaborator, so it is a
parameter. -/
def process_payload_text (parse : List Char → Option Json) (msg_id : String)
    (st : StreamSt) (data : List Char) : StreamSt × List Json :=
  match parse data with
  | none => (st, [])
  | some v => process_payload msg_id st v

/-- The full streaming translator over raw upstream chunks: frame parsing,
JSON parsing, then the state machine. -/
def stream_response_chunks (parse : List Char → Option Json)
    (req : TranslatedRequest) (msg_id : String) (now : Int)
    (chunks : List (List Char)) : List Json :=
  let start := start_events req msg_id now
  let opened := emitFold (process_payload_text parse msg_id) start.1 (sse_payloads chunks)
  start.2 ++ opened.2 ++ drain_events req msg_id now opened.1

/-!  ## Upstream-error body truncation (responses.rs lines 875-887)

`&body_text[..body_text.len().min(200)]` byte-slices a valid-UTF-8 Rust
`String`; slicing off a character boundary panics, modelled as `none`. -/

/-- A UTF-8 continuation byte. -/
def isContByte (b : Nat) : Bool := 0x80 ≤ b && b ≤ 0xBF

/-- RFC 3629 well-formedness of a byte sequence (what `String` guarantees
for `body_text`). -/
def validUtf8 : List Nat → Bool
  | [] => true
  | b :: rest =>
      if b ≤ 0x7F then validUtf8 rest
      else if 0xC2 ≤ b && b ≤ 0xDF then
        match rest with
        | c :: r => isContByte c && validUtf8 r
        | [] => false
      else if b = 0xE0 then
        match rest with
        | c :: d :: r => (0xA0 ≤ c && c ≤ 0xBF) && isContByte d && validUtf8 r
        | _ => false
      else if (0xE1 ≤ b && b ≤ 0xEC) || b = 0xEE || b = 0xEF then
        match rest with
        | c :: d :: r => isContByte c && isContByte d && validUtf8 r
        | _ => false
      else if b = 0xED then
        match rest with
        | c :: d :: r => (0x80 ≤ c && c ≤ 0x9F) && isContByte d && validUtf8 r
        | _ => false
      else if b = 0xF0 then
        match rest with
        | c :: d :: e :: r => (0x90 ≤ c && c ≤ 0xBF) && isContByte d && isContByte e && validUtf8 r
        | _ => false
      else if 0xF1 ≤ b && b ≤ 0xF3 then
        match rest with
        | c :: d :: e :: r => isContByte c && isContByte d && isContByte e && validUtf8 r
        | _ => false
      else if b = 0xF4 then
        match rest with
        | c :: d :: e :: r => (0x80 ≤ c && c ≤ 0x8F) && isContByte d && isContByte e && validUtf8 r
        | _ => false
      else false

/-- `str::is_char_boundary`. -/
def is_char_boundary (bytes : List Nat) (i : Nat) : Bool :=
  if i = 0 then true
  else match bytes.get? i with
    | some b => !isContByte b
    | none => i = bytes.length

/-- `&s[..i]`: the sliced prefix, or `none` for the boundary panic. -/
def rust_slice_to (bytes : List Nat) (i : Nat) : Option (List Nat) :=
  if is_char_boundary bytes i then some (bytes.take i) else none

/-- The log-truncation expression of `handle_responses` (line 880):
`&body_text[..body_text.len().min(200)]`. -/
def log_truncated (bytes : List Nat) : Option (List Nat) :=
  rust_slice_to bytes (min bytes.length 200)

/-!  ## Field-access lemmas for the event constructors -/

@[simp] theorem typeOf_msg_added (m : String) (s : Nat) :
    typeOf (msg_added_event m s) = some "response.output_item.added" := rfl

@[simp] theorem typeOf_content_part_added (m : String) (s : Nat) :
    typeOf (content_part_added_event m s) = some "response.content_part.added" := rfl

@[simp] theorem typeOf_output_text_delta (m c : String) (s : Nat) :
    typeOf (output_text_delta_event m c s) = some "response.output_text.delta" := rfl

@[simp] theorem typeOf_fc_added (i c n : String) (k s : Nat) :
    typeOf (fc_added_event i c n k s) = some "response.output_item.added" := rfl

@[simp] theorem typeOf_fc_args_delta (i a : String) (k s : Nat) :
    typeOf (fc_args_delta_event i a k s) = some "response.function_call_arguments.delta" := rfl

@[simp] theorem typeOf_output_text_done (m t : String) (s : Nat) :
    typeOf (output_text_done_event m t s) = some "response.output_text.done" := rfl

@[simp] theorem typeOf_content_part_done (m t : String) (s : Nat) :
    typeOf (content_part_done_event m t s) = some "response.content_part.done" := rfl

@[simp] theorem typeOf_output_item_done (k : Nat) (it : Json) (s : Nat) :
    typeOf (output_item_done_event k it s) = some "response.output_item.done" := rfl

@[simp] theorem typeOf_fc_args_done (i n a : String) (k s : Nat) :
    typeOf (fc_args_done_event i n a k s) = some "response.function_call_arguments.done" := rfl

@[simp] theorem typeOf_terminal (f : String) (r : Json) (s : Nat) :
    typeOf (terminal_event f r s) = some f := rfl

@[simp] theorem typeOf_envelope (et ri mo : String) (req : TranslatedRequest)
    (st : String) (u icd : Json) (n : Int) (s : Nat) :
    typeOf (response_envelope et ri mo req st u icd n s).2 = some et := rfl

@[simp] theorem seqNumOf_msg_added (m : String) (s : Nat) :
    seqNumOf (msg_added_event m s) = some (Json.num s) := rfl

@[simp] theorem seqNumOf_content_part_added (m : String) (s : Nat) :
    seqNumOf (content_part_added_event m s) = some (Json.num s) := rfl

@[simp] theorem seqNumOf_output_text_delta (m c : String) (s : Nat) :
    seqNumOf (output_text_delta_event m c s) = some (Json.num s) := rfl

@[simp] theorem seqNumOf_fc_added (i c n : String) (k s : Nat) :
    seqNumOf (fc_added_event i c n k s) = some (Json.num s) := rfl

@[simp] theorem seqNumOf_fc_args_delta (i a : String) (k s : Nat) :
    seqNumOf (fc_args_delta_event i a k s) = some (Json.num s) := rfl

@[simp] theorem seqNumOf_output_text_done (m t : String) (s : Nat) :
    seqNumOf (output_text_done_event m t s) = some (Json.num s) := rfl

@[simp] theorem seqNumOf_content_part_done (m t : String) (s : Nat) :
    seqNumOf (content_part_done_event m t s) = some (Json.num s) := rfl

@[simp] theorem seqNumOf_output_item_done (k : Nat) (it : Json) (s : Nat) :
    seqNumOf (output_item_done_event k it s) = some (Json.num s) := rfl

@[simp] theorem seqNumOf_fc_args_done (i n a : String) (k s : Nat) :
    seqNumOf (fc_args_done_event i n a k s) = some (Json.num s) := rfl

@[simp] theorem seqNumOf_terminal (f : String) (r : Json) (s : Nat) :
    seqNumOf (terminal_event f r s) = some (Json.num s) := rfl

@[simp] theorem seqNumOf_envelope (et ri mo : String) (req : TranslatedRequest)
    (st : String) (u icd : Json) (n : Int) (s : Nat) :
    seqNumOf (response_envelope et ri mo req st u icd n s).2 = some (Json.num (s + 1)) := rfl

@[simp] theorem envelope_fst (et ri mo : String) (req : TranslatedRequest)
    (st : String) (u icd : Json) (n : Int) (s : Nat) :
    (response_envelope et ri mo req st u icd n s).1 = s + 1 := rfl

/-!  ## Claim C6 — `tool_choice` mapping -/

/-- C6 counterexample: the claim says every value other than a string or a
`type:"function"` object defaults to `"auto"`, but `translate_tool_choice`
maps an object whose `type` is not `"function"` (here `{type:"other"}`) to
itself — the `else` arm at responses.rs line 242 is `json!(v)`, not
`json!("auto")`. -/
theorem claim_C6_counterexample :
    translate_tool_choice (Json.obj [("type", Json.str "other")]) =
      Json.obj [("type", Json.str "other")] ∧
    translate_tool_choice (Json.obj [("type", Json.str "other")]) ≠
      Json.str "auto" := by
  refine ⟨rfl, ?_⟩
  intro h
  exact Json.noConfusion h

/-- C6 (amended): `translate_tool_choice` passes string values through
unchanged; narrows an object of type `"function"` to
`{type:"function", function:{name}}`; passes every other object through
unchanged; and defaults every non-string non-object value to `"auto"`. -/
theorem claim_C6_amended (v : Json) :
    (∀ s, v = Json.str s → translate_tool_choice v = Json.str s) ∧
    (∀ kvs, v = Json.obj kvs →
      (v.getField "type").bind Json.asStr = some "function" →
      translate_tool_choice v = Json.obj [("type", Json.str "function"),
        ("function", Json.obj [("name", (v.getField "name").getD Json.null)])]) ∧
    (∀ kvs, v = Json.obj kvs →
      ((v.getField "type").bind Json.asStr ≠ some "function") →
      translate_tool_choice v = v) ∧
    ((∀ s, v ≠ Json.str s) → (∀ kvs, v ≠ Json.obj kvs) →
      translate_tool_choice v = Json.str "auto") := by
  refine ⟨?_, ?_, ?_, ?_⟩
  · rintro s rfl; rfl
  · rintro kvs rfl h
    simp only [translate_tool_choice, h]
    simp
  · rintro kvs rfl h
    simp only [translate_tool_choice]
    rcases hb : (Json.getField (Json.obj kvs) "type").bind Json.asStr with _ | s
    · simp [hb]
    · have hs : s ≠ "function" := by
        intro hs; exact h (by rw [hb, hs])
      simp [hb, hs]
  · intro hs ho
    cases v with
    | null => rfl
    | bool b => rfl
    | num n => rfl
    | str s => exact absurd rfl (hs s)
    | arr xs => rfl
    | obj kvs => exact absurd rfl (ho kvs)

/-- Witness for C6 (amended): all four arms at concrete inputs. -/
theorem claim_C6_amended_witness :
    translate_tool_choice (Json.str "required") = Json.str "required" ∧
    translate_tool_choice (Json.obj [("type", Json.str "function"), ("name", Json.str "f")]) =
      Json.obj [("type", Json.str "function"),
        ("function", Json.obj [("name", Json.str "f")])] ∧
    translate_tool_choice (Json.obj [("type", Json.str "zzz")]) =
      Json.obj [("type", Json.str "zzz")] ∧
    translate_tool_choice (Json.num 5) = Json.str "auto" := by
  refine ⟨(claim_C6_amended _).1 "required" rfl, ?_, ?_, ?_⟩
  · have h := (claim_C6_amended (Json.obj [("type", Json.str "function"), ("name", Json.str "f")])).2.1
      _ rfl (by rfl)
    simpa using h
  · exact (claim_C6_amended _).2.2.1 _ rfl (by intro h; simp [Json.getField, List.lookup, Json.asStr] at h)
  · exact (claim_C6_amended _).2.2.2 (fun s h => Json.noConfusion h) (fun kvs h => Json.noConfusion h)

/-!  ## Claim C10 — upstream error-body truncation can panic -/

set_option maxRecDepth 4000 in
/-- C10: the log truncation `&body_text[..body_text.len().min(200)]` in
`handle_responses` (responses.rs line 880) is not total: there is a valid
UTF-8 body longer than 200 bytes whose 200th byte is a continuation byte,
so the slice is off a character boundary and the operation fails (a Rust
panic) instead of producing a truncated prefix.  Witness: 199 ASCII bytes
followed by the two-byte character U+00E9. -/
theorem claim_C10 :
    ∃ bytes : List Nat, validUtf8 bytes = true ∧ 200 < bytes.length ∧
      log_truncated bytes = none := by
  refine ⟨List.replicate 199 97 ++ [0xC3, 0xA9], by decide, by decide, by decide⟩

/-!  ## Which events carry a `response` field -/

@[simp] theorem respOf_msg_added (m : String) (s : Nat) :
    (msg_added_event m s).getField "response" = none := rfl

@[simp] theorem respOf_content_part_added (m : String) (s : Nat) :
    (content_part_added_event m s).getField "response" = none := rfl

@[simp] theorem respOf_output_text_delta (m c : String) (s : Nat) :
    (output_text_delta_event m c s).getField "response" = none := rfl

@[simp] theorem respOf_fc_added (i c n : String) (k s : Nat) :
    (fc_added_event i c n k s).getField "response" = none := rfl

@[simp] theorem respOf_fc_args_delta (i a : String) (k s : Nat) :
    (fc_args_delta_event i a k s).getField "response" = none := rfl

@[simp] theorem respOf_output_text_done (m t : String) (s : Nat) :
    (output_text_done_event m t s).getField "response" = none := rfl

@[simp] theorem respOf_content_part_done (m t : String) (s : Nat) :
    (content_part_done_event m t s).getField "response" = none := rfl

@[simp] theorem respOf_output_item_done (k : Nat) (it : Json) (s : Nat) :
    (output_item_done_event k it s).getField "response" = none := rfl

@[simp] theorem respOf_fc_args_done (i n a : String) (k s : Nat) :
    (fc_args_done_event i n a k s).getField "response" = none := rfl

@[simp] theorem respOf_terminal (f : String) (r : Json) (s : Nat) :
    (terminal_event f r s).getField "response" = some r := rfl

/-!  ## Generic membership principles over the emitted event lists -/

theorem emitFold_mem_P {α : Type} (f : StreamSt → α → StreamSt × List Json)
    (P : Json → Prop) (hf : ∀ st x e, e ∈ (f st x).2 → P e) :
    ∀ (xs : List α) (st : StreamSt) (e : Json), e ∈ (emitFold f st xs).2 → P e := by
  intro xs
  induction xs with
  | nil => intro st e he; simp [emitFold] at he
  | cons x rest ih =>
      intro st e he
      simp only [emitFold] at he
      rw [List.mem_append] at he
      rcases he with h | h
      · exact hf _ _ _ h
      · exact ih _ _ h

theorem ptc_events_P (P : Json → Prop)
    (ha : ∀ i c n k s, P (fc_added_event i c n k s))
    (hd : ∀ i a k s, P (fc_args_delta_event i a k s)) :
    ∀ st tc e, e ∈ (process_tool_call_delta st tc).2 → P e := by
  intro st tc e he
  simp only [process_tool_call_delta] at he
  split at he
  · simp at he
  · split at he
    · simp at he
    · split at he
      · rename_i hif
        simp at he
        rcases he with h | h
        · subst h; apply ha
        · subst h; apply hd
      · simp at he
        subst he
        apply hd

theorem choice_events_P (msg_id : String) (P : Json → Prop)
    (ht : ∀ c s, P (output_text_delta_event msg_id c s))
    (ha : ∀ i c n k s, P (fc_added_event i c n k s))
    (hd : ∀ i a k s, P (fc_args_delta_event i a k s)) :
    ∀ st c e, e ∈ (process_choice msg_id st c).2 → P e := by
  intro st c e he
  simp only [process_choice] at he
  split at he
  · simp at he
  · rename_i delta hdelta
    have htext : ∀ (st' : StreamSt) e,
        e ∈ (match (delta.getField "content").bind Json.asStr with
          | some content =>
              if content ≠ "" then
                ({ st' with full_text := st'.full_text ++ content, seq := st'.seq + 1 },
                 [output_text_delta_event msg_id content (st'.seq + 1)])
              else (st', [])
          | none => (st', [])).2 → P e := by
      intro st' e' he'
      split at he'
      · split at he'
        · simp at he'; subst he'; apply ht
        · simp at he'
      · simp at he'
    split at he
    · rw [List.mem_append] at he
      rcases he with h | h
      · exact htext _ _ h
      · exact emitFold_mem_P _ P (ptc_events_P P ha hd) _ _ _ h
    · exact htext _ _ he

theorem payload_events_P (msg_id : String) (P : Json → Prop)
    (ht : ∀ c s, P (output_text_delta_event msg_id c s))
    (ha : ∀ i c n k s, P (fc_added_event i c n k s))
    (hd : ∀ i a k s, P (fc_args_delta_event i a k s)) :
    ∀ st p e, e ∈ (process_payload msg_id st p).2 → P e := by
  intro st p e he
  simp only [process_payload] at he
  split at he
  · simp at he
  · exact emitFold_mem_P _ P (choice_events_P msg_id P ht ha hd) _ _ _ he

theorem open_events_P (msg_id : String) (P : Json → Prop)
    (ht : ∀ c s, P (output_text_delta_event msg_id c s))
    (ha : ∀ i c n k s, P (fc_added_event i c n k s))
    (hd : ∀ i a k s, P (fc_args_delta_event i a k s)) :
    ∀ payloads st e, e ∈ (emitFold (process_payload msg_id) st payloads).2 → P e :=
  emitFold_mem_P _ P (payload_events_P msg_id P ht ha hd)

/-!  ## Echoed fields of the response-bearing payloads -/

@[simp] theorem respOf_envelope (et ri mo : String) (req : TranslatedRequest)
    (stt : String) (u icd : Json) (n : Int) (s : Nat) :
    (response_envelope et ri mo req stt u icd n s).2.getField "response" =
      some (envelope_response ri mo req stt u icd n) := rfl

theorem envelope_response_echo (ri mo : String) (req : TranslatedRequest)
    (stt : String) (u icd : Json) (n : Int) :
    (envelope_response ri mo req stt u icd n).getField "temperature" = some req.temperature ∧
    (envelope_response ri mo req stt u icd n).getField "top_p" = some req.top_p ∧
    (envelope_response ri mo req stt u icd n).getField "tool_choice" = some req.tool_choice ∧
    (envelope_response ri mo req stt u icd n).getField "parallel_tool_calls" =
      some req.parallel_tool_calls ∧
    (envelope_response ri mo req stt u icd n).getField "instructions" = some req.instructions ∧
    (envelope_response ri mo req stt u icd n).getField "tools" = some req.tools_echo :=
  ⟨rfl, rfl, rfl, rfl, rfl, rfl⟩

theorem final_response_echo (req : TranslatedRequest) (stt : String)
    (icd : Json) (out : List Json) (u : Json) (n : Int) :
    (final_response_json req stt icd out u n).getField "temperature" = some req.temperature ∧
    (final_response_json req stt icd out u n).getField "top_p" = some req.top_p ∧
    (final_response_json req stt icd out u n).getField "tool_choice" = some req.tool_choice ∧
    (final_response_json req stt icd out u n).getField "parallel_tool_calls" =
      some req.parallel_tool_calls ∧
    (final_response_json req stt icd out u n).getField "instructions" = some req.instructions ∧
    (final_response_json req stt icd out u n).getField "tools" = some req.tools_echo :=
  ⟨rfl, rfl, rfl, rfl, rfl, rfl⟩

/-!  ## Membership principle for the drain phase -/

theorem drain_tc_events_P (P : Json → Prop)
    (ha : ∀ i c n k s, P (fc_added_event i c n k s))
    (hg : ∀ i n a k s, P (fc_args_done_event i n a k s))
    (ho : ∀ k it s, P (output_item_done_event k it s)) :
    ∀ tcs seq e, e ∈ (drain_tool_calls seq tcs).2.1 → P e := by
  intro tcs
  induction tcs with
  | nil => intro seq e he; simp [drain_tool_calls] at he
  | cons ia rest ih =>
      intro seq e he
      obtain ⟨idx, acc⟩ := ia
      by_cases hA : acc.announced = true <;>
        simp only [drain_tool_calls, hA, Bool.false_eq_true, if_true, if_false,
          List.append_assoc, List.nil_append, List.cons_append, List.mem_cons,
          List.mem_append] at he
      · rcases he with rfl | rfl | he
        · exact hg _ _ _ _ _
        · exact ho _ _ _
        · exact ih _ _ (by simpa using he)
      · rcases he with rfl | rfl | rfl | he
        · exact ha _ _ _ _ _
        · exact hg _ _ _ _ _
        · exact ho _ _ _
        · exact ih _ _ (by simpa using he)

theorem drain_events_P (req : TranslatedRequest) (msg_id : String) (now : Int)
    (st : StreamSt) (P : Json → Prop)
    (h1 : ∀ t s, P (output_text_done_event msg_id t s))
    (h2 : ∀ t s, P (content_part_done_event msg_id t s))
    (h3 : ∀ k it s, P (output_item_done_event k it s))
    (ha : ∀ i c n k s, P (fc_added_event i c n k s))
    (hg : ∀ i n a k s, P (fc_args_done_event i n a k s))
    (h6 : ∀ f stt icd out u s, P (terminal_event f (final_response_json req stt icd out u now) s)) :
    ∀ e ∈ drain_events req msg_id now st, P e := by
  simp only [drain_events]
  split <;> split <;> split <;>
  · intro e he
    simp only [List.append_assoc, List.nil_append, List.cons_append,
      List.mem_append, List.mem_cons, List.not_mem_nil, false_or, or_false] at he
    casesm* _ ∨ _
    all_goals first
      | exact drain_tc_events_P P ha hg h3 _ _ _ (by assumption)
      | (subst he
         first | exact h1 _ _ | exact h2 _ _ | exact h3 _ _ _ | exact ha _ _ _ _ _
               | exact hg _ _ _ _ _ | exact h6 _ _ _ _ _ _)
      | (rename_i hx
         subst hx
         first | exact h1 _ _ | exact h2 _ _ | exact h3 _ _ _ | exact ha _ _ _ _ _
               | exact hg _ _ _ _ _ | exact h6 _ _ _ _ _ _)

/-- Every response-bearing event payload of a streaming call echoes the
`TranslatedRequest` side-table values unchanged. -/
theorem stream_resp_fields (req : TranslatedRequest) (msg_id : String) (now : Int)
    (payloads : List Json) (e r : Json)
    (he : e ∈ stream_response req msg_id now payloads)
    (hr : e.getField "response" = some r) :
    r.getField "temperature" = some req.temperature ∧
    r.getField "top_p" = some req.top_p ∧
    r.getField "tool_choice" = some req.tool_choice ∧
    r.getField "parallel_tool_calls" = some req.parallel_tool_calls ∧
    r.getField "instructions" = some req.instructions ∧
    r.getField "tools" = some req.tools_echo := by
  simp only [stream_response] at he
  rw [List.mem_append] at he
  rcases he with hso | hd
  · rw [List.mem_append] at hso
    rcases hso with hs | ho
    · simp only [start_events, List.mem_cons, List.not_mem_nil, or_false] at hs
      rcases hs with rfl | rfl | rfl | rfl
      · rw [respOf_envelope] at hr
        injection hr with hr
        subst hr
        exact envelope_response_echo _ _ _ _ _ _ _
      · rw [respOf_envelope] at hr
        injection hr with hr
        subst hr
        exact envelope_response_echo _ _ _ _ _ _ _
      · rw [respOf_msg_added] at hr; cases hr
      · rw [respOf_content_part_added] at hr; cases hr
    · have hnone := open_events_P msg_id (fun ev => ev.getField "response" = none)
        (fun c s => respOf_output_text_delta msg_id c s)
        (fun i c n k s => respOf_fc_added i c n k s)
        (fun i a k s => respOf_fc_args_delta i a k s) _ _ _ ho
      rw [hnone] at hr; cases hr
  · have hP := drain_events_P req msg_id now _
        (fun ev => ev.getField "response" = none ∨
          ∃ f stt icd out u s,
            ev = terminal_event f (final_response_json req stt icd out u now) s)
        (fun t s => Or.inl (respOf_output_text_done msg_id t s))
        (fun t s => Or.inl (respOf_content_part_done msg_id t s))
        (fun k it s => Or.inl (respOf_output_item_done k it s))
        (fun i c n k s => Or.inl (respOf_fc_added i c n k s))
        (fun i n a k s => Or.inl (respOf_fc_args_done i n a k s))
        (fun f stt icd out u s => Or.inr ⟨f, stt, icd, out, u, s, rfl⟩)
        _ hd
    rcases hP with hnone | ⟨f, stt, icd, out, u, s, rfl⟩
    · rw [hnone] at hr; cases hr
    · rw [respOf_terminal] at hr
      injection hr with hr
      subst hr
      exact final_response_echo _ _ _ _ _ _

/-!  ## Claim C5 — idempotent defaults -/

/-- C5: a Responses request with a string `model` and no `temperature`,
`top_p`, `tool_choice`, `parallel_tool_calls`, `instructions` or `tools`
translates successfully with echoed values `1`, `1`, `"auto"`, `true`,
`null`, `[]`, and every response-bearing emitted event (the lifecycle
envelopes and the terminal event, which carry a `response` object) replays
exactly those values. -/
theorem claim_C5 (body : Json) (resp_id m : String)
    (hm : (body.getField "model").bind Json.asStr = some m)
    (ht : body.getField "temperature" = none)
    (hp : body.getField "top_p" = none)
    (hc : body.getField "tool_choice" = none)
    (hx : body.getField "parallel_tool_calls" = none)
    (hi : body.getField "instructions" = none)
    (hts : body.getField "tools" = none) :
    ∃ req : TranslatedRequest, translate_request body resp_id = Except.ok req ∧
      req.temperature = Json.num 1 ∧ req.top_p = Json.num 1 ∧
      req.tool_choice = Json.str "auto" ∧ req.parallel_tool_calls = Json.bool true ∧
      req.instructions = Json.null ∧ req.tools_echo = Json.arr [] ∧
      ∀ msg_id now payloads e r, e ∈ stream_response req msg_id now payloads →
        e.getField "response" = some r →
          r.getField "temperature" = some (Json.num 1) ∧
          r.getField "top_p" = some (Json.num 1) ∧
          r.getField "tool_choice" = some (Json.str "auto") ∧
          r.getField "parallel_tool_calls" = some (Json.bool true) ∧
          r.getField "instructions" = some Json.null ∧
          r.getField "tools" = some (Json.arr []) := by
  simp only [translate_request, hm, ht, hp, hc, hx, hi, hts, Option.getD_none]
  refine ⟨_, rfl, rfl, rfl, rfl, rfl, rfl, rfl, ?_⟩
  intro msg_id now payloads e r he hr
  have h := stream_resp_fields _ msg_id now payloads e r he hr
  simpa using h

/-- Witness for C5 at the concrete request `{"model":"m"}`. -/
theorem claim_C5_witness :
    ∃ req : TranslatedRequest,
      translate_request (Json.obj [("model", Json.str "m")]) "resp_0" = Except.ok req ∧
      req.temperature = Json.num 1 ∧ req.top_p = Json.num 1 ∧
      req.tool_choice = Json.str "auto" ∧ req.parallel_tool_calls = Json.bool true ∧
      req.instructions = Json.null ∧ req.tools_echo = Json.arr [] ∧
      ∀ msg_id now payloads e r, e ∈ stream_response req msg_id now payloads →
        e.getField "response" = some r →
          r.getField "temperature" = some (Json.num 1) ∧
          r.getField "top_p" = some (Json.num 1) ∧
          r.getField "tool_choice" = some (Json.str "auto") ∧
          r.getField "parallel_tool_calls" = some (Json.bool true) ∧
          r.getField "instructions" = some Json.null ∧
          r.getField "tools" = some (Json.arr []) :=
  claim_C5 (Json.obj [("model", Json.str "m")]) "resp_0" "m" rfl rfl rfl rfl rfl rfl rfl

/-!  ## Claim C1 — sequence-number contiguity -/

/-- `SeqEmits s evts s₂`: the events carry sequence numbers
`s+1, s+2, …, s+evts.length` in order, and the counter advanced from `s`
to `s₂ = s + evts.length` — one increment immediately before each send. -/
def SeqEmits (s : Nat) (evts : List Json) (s₂ : Nat) : Prop :=
  s₂ = s + evts.length ∧
  evts.map seqNumOf =
    (List.range evts.length).map (fun i : Nat => some (Json.num ((s + 1 + i : Nat) : Int)))

theorem SeqEmits.nil (s : Nat) : SeqEmits s [] s := by
  simp [SeqEmits]

theorem SeqEmits.single {e : Json} {s : Nat}
    (h : seqNumOf e = some (Json.num ((s + 1 : Nat) : Int))) :
    SeqEmits s [e] (s + 1) := by
  refine ⟨by simp, ?_⟩
  simp [h, List.range_succ]

theorem SeqEmits.append {s s₁ s₂ : Nat} {a b : List Json}
    (ha : SeqEmits s a s₁) (hb : SeqEmits s₁ b s₂) : SeqEmits s (a ++ b) s₂ := by
  obtain ⟨ha1, ha2⟩ := ha
  obtain ⟨hb1, hb2⟩ := hb
  constructor
  · simp only [List.length_append]; omega
  · rw [List.map_append, ha2, hb2, List.length_append, List.range_add, List.map_append,
      List.map_map]
    congr 1
    apply List.map_congr_left
    intro i hi
    simp only [Function.comp_apply, Option.some.injEq, Json.num.injEq]
    congr 1
    omega

theorem SeqEmits.pair {e₁ e₂ : Json} {s : Nat}
    (h₁ : seqNumOf e₁ = some (Json.num ((s + 1 : Nat) : Int)))
    (h₂ : seqNumOf e₂ = some (Json.num ((s + 2 : Nat) : Int))) :
    SeqEmits s [e₁, e₂] (s + 2) :=
  SeqEmits.append (SeqEmits.single h₁)
    (SeqEmits.single (s := s + 1) (by rw [h₂]))

theorem seq_emitFold {α : Type} {f : StreamSt → α → StreamSt × List Json}
    (hf : ∀ st x, SeqEmits st.seq (f st x).2 (f st x).1.seq) :
    ∀ (xs : List α) (st : StreamSt),
      SeqEmits st.seq (emitFold f st xs).2 (emitFold f st xs).1.seq := by
  intro xs
  induction xs with
  | nil => intro st; exact SeqEmits.nil _
  | cons x rest ih =>
      intro st
      simp only [emitFold]
      exact (hf st x).append (ih _)

theorem seq_ptc (st : StreamSt) (tc : Json) :
    SeqEmits st.seq (process_tool_call_delta st tc).2
      (process_tool_call_delta st tc).1.seq := by
  simp only [process_tool_call_delta]
  repeat' split
  all_goals first
    | exact SeqEmits.nil _
    | (refine SeqEmits.single ?_; simp)
    | (refine SeqEmits.pair ?_ ?_ <;> (simp; try omega))

theorem seq_choice (msg_id : String) (st : StreamSt) (c : Json) :
    SeqEmits st.seq (process_choice msg_id st c).2
      (process_choice msg_id st c).1.seq := by
  simp only [process_choice]
  repeat' split
  all_goals first
    | exact SeqEmits.nil _
    | (refine SeqEmits.single ?_; simp)
    | (refine SeqEmits.append ?_ (seq_emitFold seq_ptc _ _)
       first
       | exact SeqEmits.nil _
       | (refine SeqEmits.single ?_; simp))

theorem seq_payload (msg_id : String) (st : StreamSt) (p : Json) :
    SeqEmits st.seq (process_payload msg_id st p).2
      (process_payload msg_id st p).1.seq := by
  simp only [process_payload]
  repeat' split
  all_goals first
    | exact SeqEmits.nil _
    | exact seq_emitFold (seq_choice msg_id) _ _

theorem seq_start (req : TranslatedRequest) (msg_id : String) (now : Int) :
    SeqEmits 0 (start_events req msg_id now).2 (start_events req msg_id now).1.seq := by
  simp only [start_events]
  refine SeqEmits.append (SeqEmits.append (SeqEmits.append
    (SeqEmits.single ?_) (SeqEmits.single ?_)) (SeqEmits.single ?_))
    (SeqEmits.single ?_) <;> (simp [initialStreamSt]; try omega)

theorem seq_drain_tcs :
    ∀ (tcs : List (Nat × ToolCallAcc)) (seq : Nat),
      SeqEmits seq (drain_tool_calls seq tcs).2.1 (drain_tool_calls seq tcs).1 := by
  intro tcs
  induction tcs with
  | nil => intro seq; exact SeqEmits.nil _
  | cons ia rest ih =>
      intro seq
      obtain ⟨idx, acc⟩ := ia
      by_cases hA : acc.announced = true <;>
        simp only [drain_tool_calls, hA, Bool.false_eq_true, if_true, if_false,
          List.nil_append]
      · exact SeqEmits.append
          (SeqEmits.pair (by simp) (by simp; try omega)) (ih _)
      · exact SeqEmits.append (SeqEmits.append (SeqEmits.single (by simp))
          (SeqEmits.pair (by simp; try omega) (by simp; try omega))) (ih _)

theorem seq_drain (req : TranslatedRequest) (msg_id : String) (now : Int)
    (st : StreamSt) :
    ∃ s₂, SeqEmits st.seq (drain_events req msg_id now st) s₂ := by
  simp only [drain_events]
  split <;> split <;> split <;>
    exact ⟨_, SeqEmits.append (SeqEmits.append (SeqEmits.append (SeqEmits.append
      (by first
        | exact SeqEmits.nil _
        | exact SeqEmits.pair (by simp; try omega) (by simp; try omega))
      (by first
        | exact SeqEmits.nil _
        | exact SeqEmits.single (by simp; try omega)))
      (by first
        | exact SeqEmits.nil _
        | exact SeqEmits.single (by simp; try omega)))
      (seq_drain_tcs _ _))
      (SeqEmits.single (by simp; try omega))⟩

/-- C1: over a whole streaming call — the four `Starting` lifecycle events,
every `Open`-phase delta event, every `Draining` done event and the terminal
event — the emitted `sequence_number` values are exactly `1, 2, …, n` in
emission order: strictly increasing, no gaps, starting at 1, one counter
increment immediately before each send. -/
theorem claim_C1 (req : TranslatedRequest) (msg_id : String) (now : Int)
    (payloads : List Json) :
    (stream_response req msg_id now payloads).map seqNumOf =
      (List.range (stream_response req msg_id now payloads).length).map
        (fun i : Nat => some (Json.num ((i + 1 : Nat) : Int))) := by
  have hstart := seq_start req msg_id now
  have hopen := seq_emitFold (seq_payload msg_id) payloads (start_events req msg_id now).1
  obtain ⟨s₂, hdrain⟩ := seq_drain req msg_id now
    (emitFold (process_payload msg_id) (start_events req msg_id now).1 payloads).1
  have hall : SeqEmits 0 (stream_response req msg_id now payloads) s₂ := by
    simp only [stream_response]
    exact (hstart.append hopen).append hdrain
  obtain ⟨-, h2⟩ := hall
  rw [h2]
  apply List.map_congr_left
  intro i hi
  simp only [Option.some.injEq, Json.num.injEq]
  congr 1
  omega

/-!  ## `output_index` of each event constructor -/

theorem intCast_beq (j k : Nat) : ((j : Int) == (k : Int)) = decide (j = k) := by
  rcases Nat.decEq j k with h | h
  · have hne : ¬ ((j : Int) = (k : Int)) := fun hc => h (by exact_mod_cast hc)
    simp [h, hne]
  · subst h; simp

@[simp] theorem outIdxIs_msg_added (m : String) (s k : Nat) :
    outIdxIs k (msg_added_event m s) = decide (0 = k) := by
  simp [outIdxIs, msg_added_event, Json.getField, List.lookup]
  simpa using intCast_beq 0 k

@[simp] theorem outIdxIs_content_part_added (m : String) (s k : Nat) :
    outIdxIs k (content_part_added_event m s) = decide (0 = k) := by
  simp [outIdxIs, content_part_added_event, Json.getField, List.lookup]
  simpa using intCast_beq 0 k

@[simp] theorem outIdxIs_output_text_delta (m c : String) (s k : Nat) :
    outIdxIs k (output_text_delta_event m c s) = decide (0 = k) := by
  simp [outIdxIs, output_text_delta_event, Json.getField, List.lookup]
  simpa using intCast_beq 0 k

@[simp] theorem outIdxIs_fc_added (i c n : String) (j s k : Nat) :
    outIdxIs k (fc_added_event i c n j s) = decide (j = k) := by
  simp [outIdxIs, fc_added_event, Json.getField, List.lookup, intCast_beq]

@[simp] theorem outIdxIs_fc_args_delta (i a : String) (j s k : Nat) :
    outIdxIs k (fc_args_delta_event i a j s) = decide (j = k) := by
  simp [outIdxIs, fc_args_delta_event, Json.getField, List.lookup, intCast_beq]

@[simp] theorem outIdxIs_output_text_done (m t : String) (s k : Nat) :
    outIdxIs k (output_text_done_event m t s) = decide (0 = k) := by
  simp [outIdxIs, output_text_done_event, Json.getField, List.lookup]
  simpa using intCast_beq 0 k

@[simp] theorem outIdxIs_content_part_done (m t : String) (s k : Nat) :
    outIdxIs k (content_part_done_event m t s) = decide (0 = k) := by
  simp [outIdxIs, content_part_done_event, Json.getField, List.lookup]
  simpa using intCast_beq 0 k

@[simp] theorem outIdxIs_output_item_done (j : Nat) (it : Json) (s k : Nat) :
    outIdxIs k (output_item_done_event j it s) = decide (j = k) := by
  simp [outIdxIs, output_item_done_event, Json.getField, List.lookup, intCast_beq]

@[simp] theorem outIdxIs_fc_args_done (i n a : String) (j s k : Nat) :
    outIdxIs k (fc_args_done_event i n a j s) = decide (j = k) := by
  simp [outIdxIs, fc_args_done_event, Json.getField, List.lookup, intCast_beq]

@[simp] theorem outIdxIs_terminal (f : String) (r : Json) (s k : Nat) :
    outIdxIs k (terminal_event f r s) = false := by
  simp [outIdxIs, terminal_event, Json.getField, List.lookup]

@[simp] theorem outIdxIs_envelope (et ri mo : String) (req : TranslatedRequest)
    (stt : String) (u icd : Json) (n : Int) (s k : Nat) :
    outIdxIs k (response_envelope et ri mo req stt u icd n s).2 = false := by
  simp [outIdxIs, response_envelope, Json.getField, List.lookup]

@[simp] theorem deltaPayload_fc_args_delta (i a : String) (j s : Nat) :
    deltaPayload (fc_args_delta_event i a j s) = a := rfl

@[simp] theorem argsOf_fc_args_done (i n a : String) (j s : Nat) :
    (fc_args_done_event i n a j s).getField "arguments" = some (Json.str a) := rfl

/-!  ## The ordered tool-call map -/

theorem insertTc_mem {l : List (Nat × ToolCallAcc)} {k : Nat} {a : ToolCallAcc}
    {y : Nat × ToolCallAcc} (h : y ∈ insertTc l k a) : y = (k, a) ∨ y ∈ l := by
  induction l with
  | nil => simpa [insertTc] using h
  | cons p rest ih =>
      obtain ⟨k', a'⟩ := p
      by_cases h1 : k < k'
      · simp only [insertTc, if_pos h1] at h
        rcases List.mem_cons.mp h with h2 | h2
        · exact Or.inl h2
        · exact Or.inr h2
      · by_cases h2 : k = k'
        · simp only [insertTc, if_neg h1, if_pos h2] at h
          rcases List.mem_cons.mp h with h3 | h3
          · exact Or.inl h3
          · exact Or.inr (List.mem_cons_of_mem _ h3)
        · simp only [insertTc, if_neg h1, if_neg h2] at h
          rcases List.mem_cons.mp h with h3 | h3
          · exact Or.inr (by simp [h3])
          · rcases ih h3 with h4 | h4
            · exact Or.inl h4
            · exact Or.inr (List.mem_cons_of_mem _ h4)

theorem insertTc_pairwise {l : List (Nat × ToolCallAcc)} {k : Nat} {a : ToolCallAcc}
    (h : l.Pairwise (fun x y => x.1 < y.1)) :
    (insertTc l k a).Pairwise (fun x y => x.1 < y.1) := by
  induction l with
  | nil => simp [insertTc]
  | cons p rest ih =>
      obtain ⟨k', a'⟩ := p
      rw [List.pairwise_cons] at h
      obtain ⟨hk', hrest⟩ := h
      by_cases h1 : k < k'
      · simp only [insertTc, if_pos h1]
        rw [List.pairwise_cons]
        refine ⟨?_, List.pairwise_cons.mpr ⟨hk', hrest⟩⟩
        intro y hy
        rcases List.mem_cons.mp hy with rfl | hy2
        · exact h1
        · exact Nat.lt_trans h1 (hk' y hy2)
      · by_cases h2 : k = k'
        · subst h2
          simp only [insertTc, if_neg h1, eq_self_iff_true, if_true]
          rw [List.pairwise_cons]
          exact ⟨hk', hrest⟩
        · simp only [insertTc, if_neg h1, if_neg h2]
          rw [List.pairwise_cons]
          refine ⟨?_, ih hrest⟩
          intro y hy
          rcases insertTc_mem hy with rfl | hy2
          · omega
          · exact hk' y hy2

theorem lookup_insertTc_self (l : List (Nat × ToolCallAcc)) (k : Nat) (a : ToolCallAcc) :
    (insertTc l k a).lookup k = some a := by
  induction l with
  | nil => simp [insertTc, List.lookup]
  | cons p rest ih =>
      obtain ⟨k', a'⟩ := p
      by_cases h1 : k < k'
      · simp [insertTc, if_pos h1, List.lookup]
      · by_cases h2 : k = k'
        · simp [insertTc, if_neg h1, if_pos h2, List.lookup]
        · have hb : (k == k') = false := by simpa using h2
          simp [insertTc, if_neg h1, if_neg h2, List.lookup, hb, ih]

theorem lookup_insertTc_ne (l : List (Nat × ToolCallAcc)) (k : Nat) (a : ToolCallAcc)
    (k' : Nat) (hne : k' ≠ k) :
    (insertTc l k a).lookup k' = l.lookup k' := by
  have hb : (k' == k) = false := by simpa using hne
  induction l with
  | nil => simp [insertTc, List.lookup, hb]
  | cons p rest ih =>
      obtain ⟨k₀, a₀⟩ := p
      by_cases h1 : k < k₀
      · simp [insertTc, if_pos h1, List.lookup, hb]
      · by_cases h2 : k = k₀
        · subst h2
          simp [insertTc, if_neg h1, List.lookup, hb]
        · by_cases h3 : k' = k₀
          · subst h3
            simp [insertTc, if_neg h1, if_neg h2, List.lookup]
          · have hb3 : (k' == k₀) = false := by simpa using h3
            simp [insertTc, if_neg h1, if_neg h2, List.lookup, hb3, ih]

@[simp] theorem tcApplyId_arguments (tc : Json) (acc : ToolCallAcc) :
    (tcApplyId tc acc).arguments = acc.arguments := by
  simp only [tcApplyId]
  repeat' split
  all_goals rfl

@[simp] theorem tcApplyId_announced (tc : Json) (acc : ToolCallAcc) :
    (tcApplyId tc acc).announced = acc.announced := by
  simp only [tcApplyId]
  repeat' split
  all_goals rfl

@[simp] theorem tcApplyId_item_id (tc : Json) (acc : ToolCallAcc) :
    (tcApplyId tc acc).item_id = acc.item_id := by
  simp only [tcApplyId]
  repeat' split
  all_goals rfl

@[simp] theorem tcApplyName_arguments (f : Json) (acc : ToolCallAcc) :
    (tcApplyName f acc).arguments = acc.arguments := by
  simp only [tcApplyName]
  repeat' split
  all_goals rfl

@[simp] theorem tcApplyName_announced (f : Json) (acc : ToolCallAcc) :
    (tcApplyName f acc).announced = acc.announced := by
  simp only [tcApplyName]
  repeat' split
  all_goals rfl

@[simp] theorem tcApplyName_item_id (f : Json) (acc : ToolCallAcc) :
    (tcApplyName f acc).item_id = acc.item_id := by
  simp only [tcApplyName]
  repeat' split
  all_goals rfl

theorem tcEntry_cases (st : StreamSt) (tc : Json) :
    st.tool_calls.lookup (tcIdx tc) = some (tcEntry st tc).1 ∨
    (st.tool_calls.lookup (tcIdx tc) = none ∧
      (tcEntry st tc).1.arguments = "" ∧ (tcEntry st tc).1.announced = false) := by
  rcases h : st.tool_calls.lookup (tcIdx tc) with _ | a
  · right; simp [tcEntry, h]
  · left; simp [tcEntry, h]

/-- Behavioural characterization of one tool-call delta: the state's map is
the old map with one accumulator stored back at the delta's index, and the
emitted events are exactly `[]`, one argument-fragment delta, or a deferred
item announcement followed by that delta — with the accumulated argument
text extended by exactly the emitted fragment. -/
theorem ptc_spec (st : StreamSt) (tc : Json) :
    ∃ (acc' : ToolCallAcc) (n c : Nat) (evts : List Json),
      process_tool_call_delta st tc =
        ({ st with
           seq := n
           counter := c
           tool_calls := insertTc st.tool_calls (tcIdx tc) acc' }, evts) ∧
      ((evts = [] ∧ acc'.arguments = (tcEntry st tc).1.arguments ∧
          acc'.announced = (tcEntry st tc).1.announced) ∨
       (∃ args s, evts = [fc_args_delta_event acc'.item_id args (tcIdx tc + 1) s] ∧
          acc'.arguments = (tcEntry st tc).1.arguments ++ args ∧
          acc'.announced = (tcEntry st tc).1.announced) ∨
       (∃ args cid nm s₁ s₂,
          evts = [fc_added_event acc'.item_id cid nm (tcIdx tc + 1) s₁,
                  fc_args_delta_event acc'.item_id args (tcIdx tc + 1) s₂] ∧
          acc'.arguments = (tcEntry st tc).1.arguments ++ args ∧
          acc'.announced = true ∧ (tcEntry st tc).1.announced = false)) := by
  simp only [process_tool_call_delta]
  split
  · exact ⟨_, st.seq, _, [], rfl, Or.inl ⟨rfl, by simp, by simp⟩⟩
  · split
    · exact ⟨_, st.seq, _, [], rfl, Or.inl ⟨rfl, by simp, by simp⟩⟩
    · split
      · rename_i args heqargs hcond
        refine ⟨_, _, _, _, rfl, Or.inr (Or.inr ⟨args, _, _, _, _, rfl, by simp, by simp, ?_⟩)⟩
        have := hcond.1
        simpa using this
      · rename_i args heqargs hcond
        exact ⟨_, _, _, _, rfl, Or.inr (Or.inl ⟨args, _, rfl, by simp, by simp⟩)⟩

theorem strJoin_append (a b : List String) :
    strJoin (a ++ b) = strJoin a ++ strJoin b := by
  induction a with
  | nil => simp [strJoin]
  | cons x xs ih => simp [strJoin, ih, String.append_assoc]

theorem deltaConcatAt_append (k : Nat) (a b : List Json) :
    deltaConcatAt k (a ++ b) = deltaConcatAt k a ++ deltaConcatAt k b := by
  simp [deltaConcatAt, List.filter_append, strJoin_append]

/-- The `Open`-phase invariant tying the tool-call map to the events emitted
so far: keys are strictly ascending; for every index `k`, the accumulated
`arguments` equal the concatenation of the argument-fragment deltas emitted
at output index `k+1`; and exactly one `output_item.added` has been emitted
at output index `k+1` iff the accumulator is marked `announced`. -/
def OpenInv (tcs : List (Nat × ToolCallAcc)) (evts : List Json) : Prop :=
  tcs.Pairwise (fun x y => x.1 < y.1) ∧
  (∀ k : Nat, deltaConcatAt (k + 1) evts =
    (match tcs.lookup k with | some acc => acc.arguments | none => "")) ∧
  (∀ k : Nat, evts.countP (isAddedAt (k + 1)) =
    (match tcs.lookup k with
     | some acc => if acc.announced = true then 1 else 0
     | none => 0))

theorem emitFold_inv {α : Type} {f : StreamSt → α → StreamSt × List Json}
    {Inv : List (Nat × ToolCallAcc) → List Json → Prop}
    (hf : ∀ st x evts, Inv st.tool_calls evts →
      Inv (f st x).1.tool_calls (evts ++ (f st x).2)) :
    ∀ (xs : List α) (st : StreamSt) (evts : List Json), Inv st.tool_calls evts →
      Inv (emitFold f st xs).1.tool_calls (evts ++ (emitFold f st xs).2) := by
  intro xs
  induction xs with
  | nil => intro st evts h; simpa [emitFold] using h
  | cons x rest ih =>
      intro st evts h
      simp only [emitFold]
      have h2 := ih (f st x).1 (evts ++ (f st x).2) (hf st x evts h)
      simpa [List.append_assoc] using h2

theorem ptc_open_inv (st : StreamSt) (tc : Json) (evts : List Json)
    (h : OpenInv st.tool_calls evts) :
    OpenInv (process_tool_call_delta st tc).1.tool_calls
      (evts ++ (process_tool_call_delta st tc).2) := by
  obtain ⟨acc', n, c, evts', heq, hcases⟩ := ptc_spec st tc
  obtain ⟨hsort, hargs, hadd⟩ := h
  rw [heq]
  refine ⟨insertTc_pairwise hsort, ?_, ?_⟩
  · intro k
    rw [deltaConcatAt_append]
    by_cases hk : k = tcIdx tc
    · subst hk
      simp only [lookup_insertTc_self]
      have hbase : deltaConcatAt (tcIdx tc + 1) evts = (tcEntry st tc).1.arguments := by
        have hb := hargs (tcIdx tc)
        rcases tcEntry_cases st tc with hL | ⟨hL, hA, _⟩
        · rw [hL] at hb; exact hb
        · rw [hL] at hb; rw [hA]; exact hb
      rcases hcases with ⟨rfl, ha', _⟩ | ⟨args, s, rfl, ha', _⟩ |
        ⟨args, cid, nm, s₁, s₂, rfl, ha', _, _⟩
      · rw [show deltaConcatAt (tcIdx tc + 1) ([] : List Json) = "" from rfl, hbase, ha']
        simp
      · rw [ha', ← hbase]
        congr 1
        simp [deltaConcatAt, isFcDeltaAt, isType, strJoin]
      · rw [ha', ← hbase]
        congr 1
        simp [deltaConcatAt, isFcDeltaAt, isType, strJoin]
    · rw [lookup_insertTc_ne _ _ _ _ hk]
      have hb := hargs k
      have hnone : deltaConcatAt (k + 1) evts' = "" := by
        have hne : ¬(tcIdx tc + 1 = k + 1) := by omega
        rcases hcases with ⟨rfl, _, _⟩ | ⟨args, s, rfl, _, _⟩ |
          ⟨args, cid, nm, s₁, s₂, rfl, _, _, _⟩ <;>
          simp [deltaConcatAt, isFcDeltaAt, isType, strJoin, hne]
      rw [hnone, hb]
      cases h : st.tool_calls.lookup k <;> simp
  · intro k
    rw [List.countP_append]
    by_cases hk : k = tcIdx tc
    · subst hk
      simp only [lookup_insertTc_self]
      have hbase : evts.countP (isAddedAt (tcIdx tc + 1)) =
          (if (tcEntry st tc).1.announced = true then 1 else 0) := by
        have hb := hadd (tcIdx tc)
        rcases tcEntry_cases st tc with hL | ⟨hL, _, hA⟩
        · rw [hL] at hb; exact hb
        · rw [hL] at hb; rw [hA]; simpa using hb
      rcases hcases with ⟨rfl, _, han⟩ | ⟨args, s, rfl, _, han⟩ |
        ⟨args, cid, nm, s₁, s₂, rfl, _, han, hfalse⟩
      · simp [hbase, han]
      · rw [hbase, han]
        simp [isAddedAt, isType]
      · rw [hbase, hfalse, han]
        simp [isAddedAt, isType]
    · rw [lookup_insertTc_ne _ _ _ _ hk]
      have hb := hadd k
      have hnone : evts'.countP (isAddedAt (k + 1)) = 0 := by
        have hne : ¬(tcIdx tc + 1 = k + 1) := by omega
        rcases hcases with ⟨rfl, _, _⟩ | ⟨args, s, rfl, _, _⟩ |
          ⟨args, cid, nm, s₁, s₂, rfl, _, _, _⟩ <;>
          simp [isAddedAt, isType, hne]
      rw [hnone, hb]
      cases h : st.tool_calls.lookup k <;> simp

theorem open_inv_other_evt {tcs : List (Nat × ToolCallAcc)} {evts : List Json}
    (h : OpenInv tcs evts) (e : Json)
    (hd : ∀ k : Nat, isFcDeltaAt (k + 1) e = false)
    (ha : ∀ k : Nat, isAddedAt (k + 1) e = false) :
    OpenInv tcs (evts ++ [e]) := by
  obtain ⟨hs, h1, h2⟩ := h
  refine ⟨hs, ?_, ?_⟩
  · intro k
    rw [deltaConcatAt_append, ← h1 k]
    simp [deltaConcatAt, strJoin, hd k]
  · intro k
    rw [List.countP_append, ← h2 k]
    simp [List.countP, List.countP.go, ha k]

theorem choice_open_inv (msg_id : String) (st : StreamSt) (c : Json)
    (evts : List Json) (h : OpenInv st.tool_calls evts) :
    OpenInv (process_choice msg_id st c).1.tool_calls
      (evts ++ (process_choice msg_id st c).2) := by
  simp only [process_choice]
  repeat' split
  all_goals first
    | simpa using h
    | (refine open_inv_other_evt h _ ?_ ?_ <;>
        (intro k; simp [isFcDeltaAt, isAddedAt, isType]))
    | (rw [← List.append_assoc]
       refine emitFold_inv ptc_open_inv _ _ _ ?_
       first
         | simpa using h
         | (refine open_inv_other_evt h _ ?_ ?_ <;>
             (intro k; simp [isFcDeltaAt, isAddedAt, isType])))

theorem payload_open_inv (msg_id : String) (st : StreamSt) (p : Json)
    (evts : List Json) (h : OpenInv st.tool_calls evts) :
    OpenInv (process_payload msg_id st p).1.tool_calls
      (evts ++ (process_payload msg_id st p).2) := by
  simp only [process_payload]
  repeat' split
  all_goals first
    | simpa using h
    | exact emitFold_inv (choice_open_inv msg_id) _ _ _ (by simpa using h)

theorem start_open_inv (req : TranslatedRequest) (msg_id : String) (now : Int) :
    OpenInv (start_events req msg_id now).1.tool_calls
      (start_events req msg_id now).2 := by
  refine ⟨by simp [start_events, initialStreamSt], ?_, ?_⟩
  · intro k
    simp [start_events, initialStreamSt, deltaConcatAt, isFcDeltaAt, isType,
      List.lookup, strJoin]
  · intro k
    simp [start_events, initialStreamSt, isAddedAt, isType, List.lookup]

/-- After the whole `Open` phase the invariant holds for the final state and
the events emitted so far. -/
theorem open_inv_total (req : TranslatedRequest) (msg_id : String) (now : Int)
    (payloads : List Json) :
    OpenInv (emitFold (process_payload msg_id) (start_events req msg_id now).1
        payloads).1.tool_calls
      ((start_events req msg_id now).2 ++
        (emitFold (process_payload msg_id) (start_events req msg_id now).1 payloads).2) :=
  emitFold_inv (payload_open_inv msg_id) payloads _ _ (start_open_inv req msg_id now)

/-!  ## Drain-phase characterization -/

@[simp] theorem outIdxVal_msg_added (m : String) (s : Nat) :
    outIdxVal (msg_added_event m s) = 0 := rfl

@[simp] theorem outIdxVal_content_part_added (m : String) (s : Nat) :
    outIdxVal (content_part_added_event m s) = 0 := rfl

@[simp] theorem outIdxVal_output_text_delta (m c : String) (s : Nat) :
    outIdxVal (output_text_delta_event m c s) = 0 := rfl

@[simp] theorem outIdxVal_fc_added (i c n : String) (j s : Nat) :
    outIdxVal (fc_added_event i c n j s) = (j : Int) := rfl

@[simp] theorem outIdxVal_fc_args_delta (i a : String) (j s : Nat) :
    outIdxVal (fc_args_delta_event i a j s) = (j : Int) := rfl

@[simp] theorem outIdxVal_output_text_done (m t : String) (s : Nat) :
    outIdxVal (output_text_done_event m t s) = 0 := rfl

@[simp] theorem outIdxVal_content_part_done (m t : String) (s : Nat) :
    outIdxVal (content_part_done_event m t s) = 0 := rfl

@[simp] theorem outIdxVal_output_item_done (j : Nat) (it : Json) (s : Nat) :
    outIdxVal (output_item_done_event j it s) = (j : Int) := rfl

@[simp] theorem outIdxVal_fc_args_done (i n a : String) (j s : Nat) :
    outIdxVal (fc_args_done_event i n a j s) = (j : Int) := rfl

@[simp] theorem outIdxVal_terminal (f : String) (r : Json) (s : Nat) :
    outIdxVal (terminal_event f r s) = -1 := rfl

@[simp] theorem outIdxVal_envelope (et ri mo : String) (req : TranslatedRequest)
    (stt : String) (u icd : Json) (n : Int) (s : Nat) :
    outIdxVal (response_envelope et ri mo req stt u icd n s).2 = -1 := rfl

@[simp] theorem itemOf_output_item_done (j : Nat) (it : Json) (s : Nat) :
    itemOf (output_item_done_event j it s) = some it := rfl

/-- The finalized output items of the accumulator drain loop, in map order. -/
theorem drain_tcs_items (s : Nat) (tcs : List (Nat × ToolCallAcc)) :
    (drain_tool_calls s tcs).2.2 = tcs.map (fun ia => function_call_item ia.2) := by
  induction tcs generalizing s with
  | nil => simp [drain_tool_calls]
  | cons ia rest ih =>
      obtain ⟨idx, acc⟩ := ia
      simp only [drain_tool_calls, List.map_cons]
      rw [ih]

theorem lookup_mem {l : List (Nat × ToolCallAcc)} {k : Nat} {a : ToolCallAcc}
    (h : l.lookup k = some a) : (k, a) ∈ l := by
  induction l with
  | nil => simp [List.lookup] at h
  | cons p rest ih =>
      obtain ⟨k₀, a₀⟩ := p
      by_cases hk : k = k₀
      · subst hk
        simp [List.lookup] at h
        simp [h]
      · have hb : (k == k₀) = false := by simpa using hk
        simp only [List.lookup, hb] at h
        exact List.mem_cons_of_mem _ (ih h)

theorem lookup_cons_none {k idx : Nat} {acc : ToolCallAcc}
    {rest : List (Nat × ToolCallAcc)}
    (h : ((idx, acc) :: rest).lookup k = none) :
    k ≠ idx ∧ rest.lookup k = none := by
  by_cases hk : k = idx
  · subst hk; simp [List.lookup] at h
  · have hb : (k == idx) = false := by simpa using hk
    simp only [List.lookup, hb] at h
    exact ⟨hk, h⟩

theorem lookup_none_of_lt {k : Nat} {rest : List (Nat × ToolCallAcc)}
    (h : ∀ y ∈ rest, k < y.1) : rest.lookup k = none := by
  induction rest with
  | nil => simp [List.lookup]
  | cons p r ih =>
      obtain ⟨k₀, a₀⟩ := p
      have hk : k ≠ k₀ := by
        have := h (k₀, a₀) (List.mem_cons_self _ _)
        omega
      have hb : (k == k₀) = false := by simpa using hk
      simp only [List.lookup, hb]
      exact ih (fun y hy => h y (List.mem_cons_of_mem _ hy))

/-- No drain-loop event is addressed to an output index whose tool-call
index is not in the map. -/
theorem drain_tcs_filter_none (s : Nat) (tcs : List (Nat × ToolCallAcc))
    (k : Nat) (hk : tcs.lookup k = none) :
    (drain_tool_calls s tcs).2.1.filter (outIdxIs (k + 1)) = [] := by
  induction tcs generalizing s with
  | nil => simp [drain_tool_calls]
  | cons ia rest ih =>
      obtain ⟨idx, acc⟩ := ia
      obtain ⟨hne, hrest⟩ := lookup_cons_none hk
      have hne2 : ¬(idx + 1 = k + 1) := by omega
      by_cases hA : acc.announced = true <;>
        simp only [drain_tool_calls, hA, Bool.false_eq_true, if_true, if_false,
          List.nil_append, List.cons_append, List.filter_append, List.filter_cons] <;>
        simp [hne2, ih _ hrest]

/-- For a key in the map, the drain loop's events decompose around that
accumulator's own events: a deferred announcement iff it was never
announced, then its `function_call_arguments.done` and `output_item.done`,
with no other event of the loop addressed to its output index. -/
theorem drain_tcs_split (s : Nat) (tcs : List (Nat × ToolCallAcc))
    (k : Nat) (acc : ToolCallAcc)
    (hsort : tcs.Pairwise (fun x y => x.1 < y.1))
    (hk : tcs.lookup k = some acc) :
    ∃ (l₁ l₂ : List Json) (s₁ s₂ s₃ : Nat),
      (drain_tool_calls s tcs).2.1 =
        l₁ ++ ((if acc.announced then [] else
          [fc_added_event acc.item_id acc.id acc.name (k + 1) s₁]) ++
          [fc_args_done_event acc.item_id acc.name acc.arguments (k + 1) s₂,
           output_item_done_event (k + 1) (function_call_item acc) s₃]) ++ l₂ ∧
      l₁.filter (outIdxIs (k + 1)) = [] ∧
      l₂.filter (outIdxIs (k + 1)) = [] := by
  induction tcs generalizing s with
  | nil => simp [List.lookup] at hk
  | cons ia rest ih =>
      obtain ⟨idx, acc'⟩ := ia
      rw [List.pairwise_cons] at hsort
      obtain ⟨hlt, hsort'⟩ := hsort
      by_cases hke : k = idx
      · subst hke
        have hacc : acc' = acc := by simpa [List.lookup] using hk
        subst hacc
        have hrest : rest.lookup k = none := lookup_none_of_lt hlt
        by_cases hA : acc'.announced = true
        · refine ⟨[], (drain_tool_calls (s + 1 + 1) rest).2.1, 0, s + 1, s + 1 + 1,
            ?_, rfl, drain_tcs_filter_none _ _ _ hrest⟩
          simp [drain_tool_calls, hA]
        · refine ⟨[], (drain_tool_calls (s + 1 + 1 + 1) rest).2.1, s + 1, s + 1 + 1,
            s + 1 + 1 + 1, ?_, rfl, drain_tcs_filter_none _ _ _ hrest⟩
          simp [drain_tool_calls, hA]
      · have hb : (k == idx) = false := by simpa using hke
        simp only [List.lookup, hb] at hk
        have hne2 : ¬(idx + 1 = k + 1) := by omega
        by_cases hA : acc'.announced = true
        · obtain ⟨l₁, l₂, s₁, s₂, s₃, heq, hf₁, hf₂⟩ := ih (s + 1 + 1) hsort' hk
          refine ⟨[fc_args_done_event acc'.item_id acc'.name acc'.arguments (idx + 1) (s + 1),
              output_item_done_event (idx + 1) (function_call_item acc') (s + 1 + 1)] ++ l₁,
            l₂, s₁, s₂, s₃, ?_, ?_, hf₂⟩
          · simp only [drain_tool_calls, hA, if_true, List.nil_append]
            rw [heq]
            try simp [List.append_assoc]
          · simp [List.filter_append, hne2, hf₁]
        · obtain ⟨l₁, l₂, s₁, s₂, s₃, heq, hf₁, hf₂⟩ := ih (s + 1 + 1 + 1) hsort' hk
          refine ⟨[fc_added_event acc'.item_id acc'.id acc'.name (idx + 1) (s + 1),
              fc_args_done_event acc'.item_id acc'.name acc'.arguments (idx + 1) (s + 1 + 1),
              output_item_done_event (idx + 1) (function_call_item acc') (s + 1 + 1 + 1)] ++ l₁,
            l₂, s₁, s₂, s₃, ?_, ?_, hf₂⟩
          · simp only [drain_tool_calls, hA, Bool.false_eq_true, if_false,
              List.cons_append, List.nil_append]
            rw [heq]
            try simp [List.append_assoc]
          · simp [List.filter_append, hne2, hf₁]

/-- The function-call `output_item.done` events of the drain loop carry
exactly the map's output indices in order, and exactly the finalized items. -/
theorem drain_tcs_done_events (s : Nat) (tcs : List (Nat × ToolCallAcc)) :
    ((drain_tool_calls s tcs).2.1.filter isFcItemDone).map outIdxVal =
      tcs.map (fun ia => ((ia.1 + 1 : Nat) : Int)) ∧
    ((drain_tool_calls s tcs).2.1.filter isFcItemDone).filterMap itemOf =
      tcs.map (fun ia => function_call_item ia.2) := by
  induction tcs generalizing s with
  | nil => simp [drain_tool_calls]
  | cons ia rest ih =>
      obtain ⟨idx, acc⟩ := ia
      have hle : (1 : Int) ≤ ((idx + 1 : Nat) : Int) := by exact_mod_cast Nat.succ_le_succ (Nat.zero_le idx)
      by_cases hA : acc.announced = true <;>
        simp only [drain_tool_calls, hA, Bool.false_eq_true, if_true, if_false,
          List.nil_append, List.cons_append, List.filter_append, List.filter_cons] <;>
        simp [isFcItemDone, isType, hle, ih]

theorem countP_zero_of_not {p : Json → Bool} {l : List Json}
    (h : ∀ e ∈ l, p e = false) : l.countP p = 0 := by
  rw [List.countP_eq_length_filter, List.filter_eq_nil_iff.mpr (by simpa using h)]
  rfl

@[simp] theorem frj_output (req : TranslatedRequest) (stt : String) (icd : Json)
    (out : List Json) (u : Json) (n : Int) :
    (final_response_json req stt icd out u n).getField "output" = some (Json.arr out) := rfl

theorem drain_events_ne_nil (req : TranslatedRequest) (msg_id : String) (now : Int)
    (st : StreamSt) : drain_events req msg_id now st ≠ [] := by
  simp only [drain_events]
  intro h
  exact absurd (congrArg List.length h) (by simp)

/-- The final output list carried by the drain phase's terminal event: the
message item (iff text is non-empty or there are no tool calls) followed by
the finalized function-call items in ascending index order. -/
theorem drain_terminalOutput (req : TranslatedRequest) (msg_id : String)
    (now : Int) (st : StreamSt) :
    terminalOutput (drain_events req msg_id now st) =
      (if st.full_text ≠ "" ∨ st.tool_calls = [] then
        [message_item msg_id
          (if st.finish_reason = "length" then "incomplete" else "completed") st.full_text]
       else []) ++ st.tool_calls.map (fun ia => function_call_item ia.2) := by
  simp only [drain_events, terminalOutput, List.getLast?_concat]
  simp only [respOf_terminal, frj_output, Option.bind_some, Option.some_bind, Json.asArr,
    Option.getD_some]
  rw [drain_tcs_items]
  by_cases hc : st.full_text ≠ "" ∨ st.tool_calls = [] <;> simp [hc]

theorem stream_terminalOutput (req : TranslatedRequest) (msg_id : String)
    (now : Int) (payloads : List Json) :
    terminalOutput (stream_response req msg_id now payloads) =
      terminalOutput (drain_events req msg_id now
        (emitFold (process_payload msg_id) (start_events req msg_id now).1 payloads).1) := by
  simp only [stream_response, terminalOutput]
  rw [List.getLast?_append_of_ne_nil _ (drain_events_ne_nil _ _ _ _)]

/-- No drain-phase event is an argument fragment. -/
theorem drain_no_delta (req : TranslatedRequest) (msg_id : String) (now : Int)
    (st : StreamSt) (k : Nat) :
    ∀ e ∈ drain_events req msg_id now st, isFcDeltaAt (k + 1) e = false := by
  refine drain_events_P req msg_id now st _ ?_ ?_ ?_ ?_ ?_ ?_ <;>
    (intros; simp [isFcDeltaAt, isType])

/-- An `arguments.done` event of the drain phase belongs to the accumulator
stored at its output index, and carries that accumulator's text. -/
theorem drain_args_done (req : TranslatedRequest) (msg_id : String) (now : Int)
    (st : StreamSt) (k : Nat) (e : Json)
    (hsort : st.tool_calls.Pairwise (fun x y => x.1 < y.1))
    (he : e ∈ drain_events req msg_id now st)
    (ht : isArgsDoneAt (k + 1) e = true) :
    ∃ acc s, st.tool_calls.lookup k = some acc ∧
      e = fc_args_done_event acc.item_id acc.name acc.arguments (k + 1) s := by
  have hout : outIdxIs (k + 1) e = true := by
    simp only [isArgsDoneAt, Bool.and_eq_true] at ht
    exact ht.2
  have hdtc : ∀ v : Nat, e ∈ (drain_tool_calls v st.tool_calls).2.1 →
      ∃ acc s, st.tool_calls.lookup k = some acc ∧
        e = fc_args_done_event acc.item_id acc.name acc.arguments (k + 1) s := by
    intro v hmem0
    rcases hlk : st.tool_calls.lookup k with _ | acc
    · exfalso
      have hmem : e ∈ ((drain_tool_calls v st.tool_calls).2.1).filter (outIdxIs (k + 1)) :=
        List.mem_filter.mpr ⟨hmem0, hout⟩
      rw [drain_tcs_filter_none _ _ _ hlk] at hmem
      exact List.not_mem_nil e hmem
    · obtain ⟨l₁, l₂, s₁, s₂, s₃, heq, hf₁, hf₂⟩ :=
        drain_tcs_split v st.tool_calls k acc hsort hlk
      rw [heq] at hmem0
      rcases List.mem_append.mp hmem0 with hm | hm
      · rcases List.mem_append.mp hm with hm1 | hm2
        · exfalso
          have hmf : e ∈ l₁.filter (outIdxIs (k + 1)) := List.mem_filter.mpr ⟨hm1, hout⟩
          rw [hf₁] at hmf
          exact List.not_mem_nil e hmf
        · rcases List.mem_append.mp hm2 with hm3 | hm4
          · by_cases hA : acc.announced = true
            · rw [if_pos hA] at hm3
              exact absurd hm3 (List.not_mem_nil e)
            · rw [if_neg hA] at hm3
              rcases List.mem_cons.mp hm3 with rfl | hm5
              · simp [isArgsDoneAt, isType] at ht
              · exact absurd hm5 (List.not_mem_nil e)
          · rcases List.mem_cons.mp hm4 with rfl | hm5
            · exact ⟨acc, s₂, rfl, rfl⟩
            · rcases List.mem_cons.mp hm5 with rfl | hm6
              · simp [isArgsDoneAt, isType] at ht
              · exact absurd hm6 (List.not_mem_nil e)
      · exfalso
        have hmf : e ∈ l₂.filter (outIdxIs (k + 1)) := List.mem_filter.mpr ⟨hm, hout⟩
        rw [hf₂] at hmf
        exact List.not_mem_nil e hmf
  simp only [drain_events] at he
  split at he <;> split at he <;> split at he <;>
  · simp only [List.append_assoc, List.nil_append, List.cons_append,
      List.mem_append, List.mem_cons, List.not_mem_nil, false_or, or_false] at he
    casesm* _ ∨ _
    all_goals first
      | exact hdtc _ (by assumption)
      | (rename_i hx
         subst hx
         simp [isArgsDoneAt, isType] at ht)
      | (subst he
         simp [isArgsDoneAt, isType] at ht)

/-- C2: for any upstream delta sequence and any tool-call output index, the
`arguments` carried by the `response.function_call_arguments.done` event
emitted at that index equal the concatenation, in arrival order, of all
`response.function_call_arguments.delta` payloads emitted at that index,
and the final output list holds a function-call item with the same id and
the same arguments — however upstream fragmented the text. -/
theorem claim_C2 (req : TranslatedRequest) (msg_id : String) (now : Int)
    (payloads : List Json) (k : Nat) (e : Json)
    (he : e ∈ stream_response req msg_id now payloads)
    (ht : isArgsDoneAt (k + 1) e = true) :
    e.getField "arguments" =
      some (Json.str (deltaConcatAt (k + 1) (stream_response req msg_id now payloads))) ∧
    ∃ item ∈ terminalOutput (stream_response req msg_id now payloads),
      item.getField "id" = e.getField "item_id" ∧
      item.getField "arguments" =
        some (Json.str (deltaConcatAt (k + 1) (stream_response req msg_id now payloads))) := by
  obtain ⟨hsort, hargs, hadd⟩ := open_inv_total req msg_id now payloads
  have hdrain : e ∈ drain_events req msg_id now
      (emitFold (process_payload msg_id) (start_events req msg_id now).1 payloads).1 := by
    simp only [stream_response] at he
    rcases List.mem_append.mp he with hso | hd
    · exfalso
      rcases List.mem_append.mp hso with hs | ho
      · simp only [start_events, List.mem_cons, List.not_mem_nil, or_false] at hs
        rcases hs with rfl | rfl | rfl | rfl <;> simp [isArgsDoneAt, isType] at ht
      · have hev := open_events_P msg_id (fun ev => isArgsDoneAt (k + 1) ev = false)
          (fun c s => by simp [isArgsDoneAt, isType])
          (fun i c n j s => by simp [isArgsDoneAt, isType])
          (fun i a j s => by simp [isArgsDoneAt, isType]) _ _ _ ho
        rw [hev] at ht
        cases ht
    · exact hd
  obtain ⟨acc, s, hlk, rfl⟩ := drain_args_done req msg_id now _ k e hsort hdrain ht
  have hdarg : deltaConcatAt (k + 1)
      ((start_events req msg_id now).2 ++
        (emitFold (process_payload msg_id) (start_events req msg_id now).1 payloads).2) =
      acc.arguments := by
    have h0 := hargs k
    rw [hlk] at h0
    exact h0
  have hnil : deltaConcatAt (k + 1) (drain_events req msg_id now
      (emitFold (process_payload msg_id) (start_events req msg_id now).1 payloads).1) = "" := by
    have hf := drain_no_delta req msg_id now
      (emitFold (process_payload msg_id) (start_events req msg_id now).1 payloads).1 k
    simp only [deltaConcatAt, List.filter_eq_nil_iff.mpr (by simpa using hf), List.map_nil]
    rfl
  have hconcat : deltaConcatAt (k + 1) (stream_response req msg_id now payloads) =
      acc.arguments := by
    simp only [stream_response]
    rw [deltaConcatAt_append, hnil, hdarg]
    simp
  refine ⟨by rw [hconcat]; rfl, function_call_item acc, ?_, rfl, by rw [hconcat]; rfl⟩
  rw [stream_terminalOutput, drain_terminalOutput]
  exact List.mem_append.mpr (Or.inr (List.mem_map.mpr ⟨(k, acc), lookup_mem hlk, rfl⟩))

theorem countP_zero_of_outIdx {l : List Json} {k : Nat}
    (h : l.filter (outIdxIs k) = []) (p : Json → Bool)
    (hp : ∀ e, p e = true → outIdxIs k e = true) : l.countP p = 0 := by
  refine countP_zero_of_not (fun e he => ?_)
  by_cases hpe : p e = true
  · exfalso
    have : e ∈ l.filter (outIdxIs k) := List.mem_filter.mpr ⟨he, hp e hpe⟩
    rw [h] at this
    exact List.not_mem_nil e this
  · simpa using hpe

theorem isDoneAt_outIdx {k : Nat} {e : Json} (h : isDoneAt k e = true) :
    outIdxIs k e = true := by
  simp only [isDoneAt, Bool.and_eq_true] at h
  exact h.2

theorem isAddedAt_outIdx {k : Nat} {e : Json} (h : isAddedAt k e = true) :
    outIdxIs k e = true := by
  simp only [isAddedAt, Bool.and_eq_true] at h
  exact h.2

/-- Event counts of the accumulator drain loop at one output index: exactly
one `output_item.done`, and a deferred `output_item.added` iff the
accumulator was never announced. -/
theorem drain_tcs_counts (s : Nat) (tcs : List (Nat × ToolCallAcc)) (k : Nat)
    (hsort : tcs.Pairwise (fun x y => x.1 < y.1)) :
    ((drain_tool_calls s tcs).2.1.countP (isDoneAt (k + 1)) =
      (match tcs.lookup k with | some _ => 1 | none => 0)) ∧
    ((drain_tool_calls s tcs).2.1.countP (isAddedAt (k + 1)) =
      (match tcs.lookup k with
       | some acc => if acc.announced = true then 0 else 1
       | none => 0)) := by
  induction tcs generalizing s with
  | nil => simp [drain_tool_calls, List.lookup]
  | cons ia rest ih =>
      obtain ⟨idx, acc⟩ := ia
      rw [List.pairwise_cons] at hsort
      obtain ⟨hlt, hsort'⟩ := hsort
      by_cases hke : k = idx
      · subst hke
        have hrest : rest.lookup k = none := lookup_none_of_lt hlt
        have hih := fun s => ih s hsort'
        by_cases hA : acc.announced = true <;>
          simp only [drain_tool_calls, hA, if_true, Bool.false_eq_true, if_false,
            List.nil_append, List.cons_append, List.countP_append, List.countP_cons,
            List.lookup, beq_self_eq_true] <;>
          simp [isDoneAt, isAddedAt, isType, (hih _).1, (hih _).2, hrest, hA]
      · have hb : (k == idx) = false := by simpa using hke
        have hne2 : ¬(idx + 1 = k + 1) := by omega
        have hih := fun s => ih s hsort'
        by_cases hA : acc.announced = true <;>
          simp only [drain_tool_calls, hA, if_true, Bool.false_eq_true, if_false,
            List.nil_append, List.cons_append, List.countP_append, List.countP_cons,
            List.lookup, hb] <;>
          simp [isDoneAt, isAddedAt, isType, (hih _).1, (hih _).2, hne2]

@[simp] theorem isDoneAt_text_done (k : Nat) (m t : String) (s : Nat) :
    isDoneAt k (output_text_done_event m t s) = false := by
  simp [isDoneAt, isType]

@[simp] theorem isDoneAt_cp_done (k : Nat) (m t : String) (s : Nat) :
    isDoneAt k (content_part_done_event m t s) = false := by
  simp [isDoneAt, isType]

@[simp] theorem isDoneAt_item0 (k : Nat) (it : Json) (s : Nat) :
    isDoneAt (k + 1) (output_item_done_event 0 it s) = false := by
  have h0 : ¬((0 : Nat) = k + 1) := by omega
  simp [isDoneAt, isType, h0]

@[simp] theorem isDoneAt_terminal (k : Nat) (f : String) (r : Json) (s : Nat) :
    isDoneAt k (terminal_event f r s) = false := by
  simp [isDoneAt]

@[simp] theorem isAddedAt_text_done (k : Nat) (m t : String) (s : Nat) :
    isAddedAt k (output_text_done_event m t s) = false := by
  simp [isAddedAt, isType]

@[simp] theorem isAddedAt_cp_done (k : Nat) (m t : String) (s : Nat) :
    isAddedAt k (content_part_done_event m t s) = false := by
  simp [isAddedAt, isType]

@[simp] theorem isAddedAt_item_done (k j : Nat) (it : Json) (s : Nat) :
    isAddedAt k (output_item_done_event j it s) = false := by
  simp [isAddedAt, isType]

@[simp] theorem isAddedAt_terminal (k : Nat) (f : String) (r : Json) (s : Nat) :
    isAddedAt k (terminal_event f r s) = false := by
  simp [isAddedAt]

@[simp] theorem isFcItemDone_text_done (m t : String) (s : Nat) :
    isFcItemDone (output_text_done_event m t s) = false := by
  simp [isFcItemDone, isType]

@[simp] theorem isFcItemDone_cp_done (m t : String) (s : Nat) :
    isFcItemDone (content_part_done_event m t s) = false := by
  simp [isFcItemDone, isType]

@[simp] theorem isFcItemDone_item0 (it : Json) (s : Nat) :
    isFcItemDone (output_item_done_event 0 it s) = false := by
  simp [isFcItemDone]

@[simp] theorem isFcItemDone_terminal (f : String) (r : Json) (s : Nat) :
    isFcItemDone (terminal_event f r s) = false := by
  simp [isFcItemDone]

/-- Event accounting of the whole `Draining` phase at tool-call index `k`:
one `output_item.done` per stored accumulator, a deferred
`output_item.added` iff the accumulator was never announced, and the
function-call `output_item.done` events carry exactly the stored indices
and finalized items in ascending order. -/
theorem drain_counts (req : TranslatedRequest) (msg_id : String) (now : Int)
    (st : StreamSt) (k : Nat)
    (hsort : st.tool_calls.Pairwise (fun x y => x.1 < y.1)) :
    ((drain_events req msg_id now st).countP (isDoneAt (k + 1)) =
       (match st.tool_calls.lookup k with | some _ => 1 | none => 0)) ∧
    ((drain_events req msg_id now st).countP (isAddedAt (k + 1)) =
       (match st.tool_calls.lookup k with
        | some acc => if acc.announced = true then 0 else 1
        | none => 0)) ∧
    (((drain_events req msg_id now st).filter isFcItemDone).map outIdxVal =
       st.tool_calls.map (fun ia => ((ia.1 + 1 : Nat) : Int))) ∧
    (((drain_events req msg_id now st).filter isFcItemDone).filterMap itemOf =
       st.tool_calls.map (fun ia => function_call_item ia.2)) := by
  have hdc1 := fun s => (drain_tcs_counts s st.tool_calls k hsort).1
  have hdc2 := fun s => (drain_tcs_counts s st.tool_calls k hsort).2
  have hdd1 := fun s => (drain_tcs_done_events s st.tool_calls).1
  have hdd2 := fun s => (drain_tcs_done_events s st.tool_calls).2
  refine ⟨?_, ?_, ?_, ?_⟩ <;>
  · simp only [drain_events]
    split <;> split <;> split <;>
      simp [List.countP_append, List.filter_append, List.countP_cons,
        List.filter_cons, hdc1, hdc2, hdd1, hdd2]

@[simp] theorem isAddedAt_fc_added (k : Nat) (i c n : String) (j s : Nat) :
    isAddedAt k (fc_added_event i c n j s) = decide (j = k) := by
  simp [isAddedAt, isType]

@[simp] theorem isDoneAt_fc_added (k : Nat) (i c n : String) (j s : Nat) :
    isDoneAt k (fc_added_event i c n j s) = false := by
  simp [isDoneAt, isType]

@[simp] theorem isAddedAt_fc_args_done (k : Nat) (i n a : String) (j s : Nat) :
    isAddedAt k (fc_args_done_event i n a j s) = false := by
  simp [isAddedAt, isType]

@[simp] theorem isDoneAt_fc_args_done (k : Nat) (i n a : String) (j s : Nat) :
    isDoneAt k (fc_args_done_event i n a j s) = false := by
  simp [isDoneAt, isType]

@[simp] theorem isDoneAt_item_done (k j : Nat) (it : Json) (s : Nat) :
    isDoneAt k (output_item_done_event j it s) = decide (j = k) := by
  simp [isDoneAt, isType]

@[simp] theorem isAddedAt_succ_msg_added (k : Nat) (m : String) (s : Nat) :
    isAddedAt (k + 1) (msg_added_event m s) = false := by
  have h0 : ¬((0 : Nat) = k + 1) := by omega
  simp [isAddedAt, isType, h0]

@[simp] theorem isDoneAt_msg_added (k : Nat) (m : String) (s : Nat) :
    isDoneAt k (msg_added_event m s) = false := by
  simp [isDoneAt, isType]

@[simp] theorem isAddedAt_cp_added (k : Nat) (m : String) (s : Nat) :
    isAddedAt k (content_part_added_event m s) = false := by
  simp [isAddedAt, isType]

@[simp] theorem isDoneAt_cp_added (k : Nat) (m : String) (s : Nat) :
    isDoneAt k (content_part_added_event m s) = false := by
  simp [isDoneAt, isType]

@[simp] theorem isAddedAt_text_delta (k : Nat) (m c : String) (s : Nat) :
    isAddedAt k (output_text_delta_event m c s) = false := by
  simp [isAddedAt, isType]

@[simp] theorem isDoneAt_text_delta (k : Nat) (m c : String) (s : Nat) :
    isDoneAt k (output_text_delta_event m c s) = false := by
  simp [isDoneAt, isType]

@[simp] theorem isAddedAt_fc_args_delta (k : Nat) (i a : String) (j s : Nat) :
    isAddedAt k (fc_args_delta_event i a j s) = false := by
  simp [isAddedAt, isType]

@[simp] theorem isDoneAt_fc_args_delta (k : Nat) (i a : String) (j s : Nat) :
    isDoneAt k (fc_args_delta_event i a j s) = false := by
  simp [isDoneAt, isType]

@[simp] theorem isAddedAt_envelope (k : Nat) (et ri mo : String)
    (req : TranslatedRequest) (stt : String) (u icd : Json) (n : Int) (s : Nat) :
    isAddedAt k (response_envelope et ri mo req stt u icd n s).2 = false := by
  simp [isAddedAt]

@[simp] theorem isDoneAt_envelope (k : Nat) (et ri mo : String)
    (req : TranslatedRequest) (stt : String) (u icd : Json) (n : Int) (s : Nat) :
    isDoneAt k (response_envelope et ri mo req stt u icd n s).2 = false := by
  simp [isDoneAt]

@[simp] theorem isFcItemDone_envelope (et ri mo : String)
    (req : TranslatedRequest) (stt : String) (u icd : Json) (n : Int) (s : Nat) :
    isFcItemDone (response_envelope et ri mo req stt u icd n s).2 = false := by
  simp [isFcItemDone]

@[simp] theorem isFcItemDone_msg_added (m : String) (s : Nat) :
    isFcItemDone (msg_added_event m s) = false := by
  simp [isFcItemDone, isType]

@[simp] theorem isFcItemDone_cp_added (m : String) (s : Nat) :
    isFcItemDone (content_part_added_event m s) = false := by
  simp [isFcItemDone, isType]

@[simp] theorem isFcItemDone_text_delta (m c : String) (s : Nat) :
    isFcItemDone (output_text_delta_event m c s) = false := by
  simp [isFcItemDone, isType]

@[simp] theorem isFcItemDone_fc_added (i c n : String) (j s : Nat) :
    isFcItemDone (fc_added_event i c n j s) = false := by
  simp [isFcItemDone, isType]

@[simp] theorem isFcItemDone_fc_args_delta (i a : String) (j s : Nat) :
    isFcItemDone (fc_args_delta_event i a j s) = false := by
  simp [isFcItemDone, isType]

@[simp] theorem isFcItemDone_fc_args_done (i n a : String) (j s : Nat) :
    isFcItemDone (fc_args_done_event i n a j s) = false := by
  simp [isFcItemDone, isType]

theorem split_of_counts {L M R : List Json} {k : Nat} {acc : ToolCallAcc}
    (hLA : L.countP (isAddedAt (k + 1)) = 0) (hLD : L.countP (isDoneAt (k + 1)) = 0)
    (hRA : R.countP (isAddedAt (k + 1)) = 0) (hRD : R.countP (isDoneAt (k + 1)) = 0)
    (hM : ∃ d₁ d₂ : List Json, M = d₁ ++ d₂ ∧
      d₁.countP (isAddedAt (k + 1)) = (if acc.announced = true then 0 else 1) ∧
      d₁.countP (isDoneAt (k + 1)) = 0 ∧
      d₂.countP (isAddedAt (k + 1)) = 0 ∧ d₂.countP (isDoneAt (k + 1)) = 1) :
    ∃ d₁ d₂ : List Json, L ++ M ++ R = d₁ ++ d₂ ∧
      d₁.countP (isAddedAt (k + 1)) = (if acc.announced = true then 0 else 1) ∧
      d₁.countP (isDoneAt (k + 1)) = 0 ∧
      d₂.countP (isAddedAt (k + 1)) = 0 ∧ d₂.countP (isDoneAt (k + 1)) = 1 := by
  obtain ⟨d₁, d₂, rfl, h1, h2, h3, h4⟩ := hM
  refine ⟨L ++ d₁, d₂ ++ R, by simp [List.append_assoc], ?_, ?_, ?_, ?_⟩ <;>
    simp [List.countP_append, hLA, hLD, hRA, hRD, h1, h2, h3, h4]

/-- The events of the accumulator drain loop split around one stored key:
its deferred announcement (iff never announced) strictly before its single
`output_item.done`. -/
theorem dtc_split_counts (s : Nat) (tcs : List (Nat × ToolCallAcc)) (k : Nat)
    (acc : ToolCallAcc) (hsort : tcs.Pairwise (fun x y => x.1 < y.1))
    (hk : tcs.lookup k = some acc) :
    ∃ d₁ d₂ : List Json, (drain_tool_calls s tcs).2.1 = d₁ ++ d₂ ∧
      d₁.countP (isAddedAt (k + 1)) = (if acc.announced = true then 0 else 1) ∧
      d₁.countP (isDoneAt (k + 1)) = 0 ∧
      d₂.countP (isAddedAt (k + 1)) = 0 ∧ d₂.countP (isDoneAt (k + 1)) = 1 := by
  obtain ⟨l₁, l₂, s₁, s₂, s₃, heq, hf₁, hf₂⟩ := drain_tcs_split s tcs k acc hsort hk
  have h₁A : l₁.countP (isAddedAt (k + 1)) = 0 :=
    countP_zero_of_outIdx hf₁ _ (fun e => isAddedAt_outIdx)
  have h₁D : l₁.countP (isDoneAt (k + 1)) = 0 :=
    countP_zero_of_outIdx hf₁ _ (fun e => isDoneAt_outIdx)
  have h₂A : l₂.countP (isAddedAt (k + 1)) = 0 :=
    countP_zero_of_outIdx hf₂ _ (fun e => isAddedAt_outIdx)
  have h₂D : l₂.countP (isDoneAt (k + 1)) = 0 :=
    countP_zero_of_outIdx hf₂ _ (fun e => isDoneAt_outIdx)
  refine ⟨l₁ ++ (if acc.announced = true then [] else
      [fc_added_event acc.item_id acc.id acc.name (k + 1) s₁]),
    [fc_args_done_event acc.item_id acc.name acc.arguments (k + 1) s₂,
     output_item_done_event (k + 1) (function_call_item acc) s₃] ++ l₂,
    ?_, ?_, ?_, ?_, ?_⟩
  · rw [heq]
    by_cases hA : acc.announced = true <;> simp [hA, List.append_assoc]
  · by_cases hA : acc.announced = true <;>
      simp [hA, List.countP_append, List.countP_cons, h₁A]
  · by_cases hA : acc.announced = true <;>
      simp [hA, List.countP_append, List.countP_cons, h₁D]
  · simp [List.countP_append, List.countP_cons, h₂A]
  · simp [List.countP_append, List.countP_cons, h₂D]

/-- Across the whole `Draining` phase, a stored accumulator's deferred
announcement (iff never announced) strictly precedes its single
`output_item.done`. -/
theorem drain_split (req : TranslatedRequest) (msg_id : String) (now : Int)
    (st : StreamSt) (k : Nat) (acc : ToolCallAcc)
    (hsort : st.tool_calls.Pairwise (fun x y => x.1 < y.1))
    (hk : st.tool_calls.lookup k = some acc) :
    ∃ d₁ d₂ : List Json, drain_events req msg_id now st = d₁ ++ d₂ ∧
      d₁.countP (isAddedAt (k + 1)) = (if acc.announced = true then 0 else 1) ∧
      d₁.countP (isDoneAt (k + 1)) = 0 ∧
      d₂.countP (isAddedAt (k + 1)) = 0 ∧ d₂.countP (isDoneAt (k + 1)) = 1 := by
  simp only [drain_events]
  split <;> split <;> split <;>
    exact split_of_counts
      (by simp [List.countP_append, List.countP_cons])
      (by simp [List.countP_append, List.countP_cons])
      (by simp [List.countP_cons])
      (by simp [List.countP_cons])
      (dtc_split_counts _ _ _ _ hsort hk)

@[simp] theorem typeOf_message_item (m st t : String) :
    typeOf (message_item m st t) = some "message" := rfl

@[simp] theorem typeOf_function_call_item (acc : ToolCallAcc) :
    typeOf (function_call_item acc) = some "function_call" := rfl

/-- The `Starting` and `Open` phases emit no `output_item.done` event. -/
theorem pre_drain_no_done (req : TranslatedRequest) (msg_id : String)
    (now : Int) (payloads : List Json) (k : Nat) :
    ((start_events req msg_id now).2 ++
      (emitFold (process_payload msg_id) (start_events req msg_id now).1
        payloads).2).countP (isDoneAt (k + 1)) = 0 ∧
    ((start_events req msg_id now).2 ++
      (emitFold (process_payload msg_id) (start_events req msg_id now).1
        payloads).2).filter isFcItemDone = [] := by
  have hopen := open_events_P msg_id
      (fun e => isDoneAt (k + 1) e = false ∧ isFcItemDone e = false)
      (fun c s => by simp) (fun i c n j s => by simp) (fun i a j s => by simp)
      payloads (start_events req msg_id now).1
  constructor
  · refine countP_zero_of_not (fun e he => ?_)
    rcases List.mem_append.mp he with hs | ho
    · simp only [start_events, List.mem_cons, List.not_mem_nil, or_false] at hs
      rcases hs with rfl | rfl | rfl | rfl <;> simp
    · exact (hopen e ho).1
  · refine List.filter_eq_nil_iff.mpr (fun e he => ?_)
    rcases List.mem_append.mp he with hs | ho
    · simp only [start_events, List.mem_cons, List.not_mem_nil, or_false] at hs
      rcases hs with rfl | rfl | rfl | rfl <;> simp
    · simp [(hopen e ho).2]

theorem lookup_of_mem {l : List (Nat × ToolCallAcc)} {k : Nat} {a : ToolCallAcc}
    (hs : l.Pairwise (fun x y => x.1 < y.1)) (h : (k, a) ∈ l) :
    l.lookup k = some a := by
  induction l with
  | nil => cases h
  | cons p rest ih =>
      rw [List.pairwise_cons] at hs
      obtain ⟨hlt, hs'⟩ := hs
      rcases List.mem_cons.mp h with heq | hm
      · obtain ⟨k₀, a₀⟩ := p
        injection heq with h1 h2
        subst h1
        subst h2
        simp [List.lookup]
      · obtain ⟨k₀, a₀⟩ := p
        have hk : k ≠ k₀ := by
          have := hlt (k, a) hm
          simp at this
          omega
        have hb : (k == k₀) = false := by simpa using hk
        simp only [List.lookup, hb]
        exact ih hs' hm

/-- C4: for every streaming call, the function-call items of the final
output list appear in ascending tool-call-index order (contiguous output
indices starting at 1 were established by the drain characterization), they
are exactly the items carried by the function-call `output_item.done`
events, and each announced index has exactly one `response.output_item.added`
and one `response.output_item.done` event, the `added` strictly before the
`done`, whatever the fragmentation and arrival order of the upstream
tool-call deltas. -/
theorem claim_C4 (req : TranslatedRequest) (msg_id : String) (now : Int)
    (payloads : List Json) :
    (((stream_response req msg_id now payloads).filter isFcItemDone).map
        outIdxVal).Pairwise (fun a b => a < b) ∧
    (terminalOutput (stream_response req msg_id now payloads)).filter
        (isType "function_call") =
      ((stream_response req msg_id now payloads).filter isFcItemDone).filterMap
        itemOf ∧
    ∀ k : Nat,
      (stream_response req msg_id now payloads).countP (isAddedAt (k + 1)) =
        (stream_response req msg_id now payloads).countP (isDoneAt (k + 1)) ∧
      (stream_response req msg_id now payloads).countP (isDoneAt (k + 1)) ≤ 1 ∧
      (((k + 1 : Nat) : Int) ∈
          ((stream_response req msg_id now payloads).filter isFcItemDone).map
            outIdxVal →
        ∃ d₁ d₂ : List Json,
          stream_response req msg_id now payloads = d₁ ++ d₂ ∧
          d₁.countP (isAddedAt (k + 1)) = 1 ∧
          d₁.countP (isDoneAt (k + 1)) = 0 ∧
          d₂.countP (isAddedAt (k + 1)) = 0 ∧
          d₂.countP (isDoneAt (k + 1)) = 1) := by
  obtain ⟨hsort, hdelta, hadded⟩ := open_inv_total req msg_id now payloads
  have hpre := fun k => pre_drain_no_done req msg_id now payloads k
  have hdc := fun k => drain_counts req msg_id now
    (emitFold (process_payload msg_id) (start_events req msg_id now).1 payloads).1
    k hsort
  have hstream : stream_response req msg_id now payloads =
      ((start_events req msg_id now).2 ++
        (emitFold (process_payload msg_id) (start_events req msg_id now).1
          payloads).2) ++
      drain_events req msg_id now
        (emitFold (process_payload msg_id) (start_events req msg_id now).1
          payloads).1 := rfl
  refine ⟨?_, ?_, ?_⟩
  · rw [hstream, List.filter_append, (hpre 0).2, List.nil_append, (hdc 0).2.2.1,
      List.pairwise_map]
    exact hsort.imp (fun hab => by exact_mod_cast Nat.succ_lt_succ hab)
  · have hR : ((stream_response req msg_id now payloads).filter
        isFcItemDone).filterMap itemOf =
        (emitFold (process_payload msg_id) (start_events req msg_id now).1
          payloads).1.tool_calls.map (fun ia => function_call_item ia.2) := by
      rw [hstream, List.filter_append, (hpre 0).2, List.nil_append,
        (hdc 0).2.2.2]
    rw [hR, stream_terminalOutput, drain_terminalOutput]
    rw [List.filter_append, List.filter_map]
    have hmsg : ∀ l : List Json,
        (if (emitFold (process_payload msg_id) (start_events req msg_id now).1
              payloads).1.full_text ≠ "" ∨
            (emitFold (process_payload msg_id) (start_events req msg_id now).1
              payloads).1.tool_calls = [] then l else []).filter
          (isType "function_call") =
          l.filter (isType "function_call") ∨
        (if (emitFold (process_payload msg_id) (start_events req msg_id now).1
              payloads).1.full_text ≠ "" ∨
            (emitFold (process_payload msg_id) (start_events req msg_id now).1
              payloads).1.tool_calls = [] then l else []).filter
          (isType "function_call") = [] := by
      intro l
      split
      · exact Or.inl rfl
      · exact Or.inr rfl
    rcases hmsg [message_item msg_id
        (if (emitFold (process_payload msg_id) (start_events req msg_id now).1
              payloads).1.finish_reason = "length" then "incomplete"
         else "completed")
        (emitFold (process_payload msg_id) (start_events req msg_id now).1
          payloads).1.full_text] with hm | hm <;>
      rw [hm] <;>
      simp [isType, List.filter_eq_self, Function.comp] <;>
      rw [List.filter_eq_self.mpr (fun x hx => by simp [Function.comp, isType])]
  · intro k
    have h1 := (hpre k).1
    have h2 := hadded k
    have h3 := (hdc k).1
    have h4 := (hdc k).2.1
    refine ⟨?_, ?_, ?_⟩
    · rw [hstream]
      rw [List.countP_append, h2, h4, List.countP_append, h1, h3]
      rcases hL : (emitFold (process_payload msg_id)
          (start_events req msg_id now).1 payloads).1.tool_calls.lookup k with
        _ | acc
      · simp
      · by_cases hA : acc.announced = true <;> simp [hA]
    · rw [hstream]
      rw [List.countP_append, h1, h3]
      rcases hL : (emitFold (process_payload msg_id)
          (start_events req msg_id now).1 payloads).1.tool_calls.lookup k with
        _ | acc <;> simp
    · intro hmem
      rw [hstream, List.filter_append, (hpre k).2, List.nil_append,
        (hdc k).2.2.1] at hmem
      obtain ⟨ia, hia, hcast⟩ := List.mem_map.mp hmem
      have hik : ia.1 = k := by
        have : ia.1 + 1 = k + 1 := by exact_mod_cast hcast
        omega
      have hmem2 : (k, ia.2) ∈ (emitFold (process_payload msg_id)
          (start_events req msg_id now).1 payloads).1.tool_calls := by
        rw [← hik]
        simpa using hia
      have hL := lookup_of_mem hsort hmem2
      obtain ⟨d₁, d₂, heq, c1, c2, c3, c4⟩ :=
        drain_split req msg_id now _ k ia.2 hsort hL
      refine ⟨((start_events req msg_id now).2 ++
          (emitFold (process_payload msg_id) (start_events req msg_id now).1
            payloads).2) ++ d₁, d₂, ?_, ?_, ?_, c3, c4⟩
      · rw [hstream, heq, ← List.append_assoc]
      · rw [List.countP_append, h2, c1]
        simp only [hL]
        by_cases hA : ia.2.announced = true <;> simp [hA]
      · rw [List.countP_append, h1, c2]

theorem emitFold_started {α : Type} (f : StreamSt → α → StreamSt × List Json)
    (hf : ∀ st x, (f st x).1.text_content_started = st.text_content_started) :
    ∀ (l : List α) (st : StreamSt),
      (emitFold f st l).1.text_content_started = st.text_content_started := by
  intro l
  induction l with
  | nil => intro st; rfl
  | cons x rest ih => intro st; rw [emitFold, ih, hf]

theorem ptc_started (st : StreamSt) (tc : Json) :
    (process_tool_call_delta st tc).1.text_content_started =
      st.text_content_started := by
  simp only [process_tool_call_delta]
  repeat' split
  all_goals rfl

theorem choice_started (msg_id : String) (st : StreamSt) (c : Json) :
    (process_choice msg_id st c).1.text_content_started =
      st.text_content_started := by
  simp only [process_choice]
  repeat' split
  all_goals first
    | rfl
    | (rw [emitFold_started _ ptc_started]; rfl)
    | rw [emitFold_started _ ptc_started]

theorem payload_started (msg_id : String) (st : StreamSt) (p : Json) :
    (process_payload msg_id st p).1.text_content_started =
      st.text_content_started := by
  simp only [process_payload]
  repeat' split
  all_goals first
    | rfl
    | (rw [emitFold_started _ (choice_started msg_id)]; rfl)
    | rw [emitFold_started _ (choice_started msg_id)]

/-- The `text_content_started` flag set by the `Starting` phase stays `true`
through the whole `Open` phase. -/
theorem open_started (req : TranslatedRequest) (msg_id : String) (now : Int)
    (payloads : List Json) :
    (emitFold (process_payload msg_id) (start_events req msg_id now).1
      payloads).1.text_content_started = true := by
  rw [emitFold_started _ (payload_started msg_id)]
  rfl

/-- No `Open`-phase event is an `output_text.done`, `content_part.done`,
`content_part.added` or `output_item.done`. -/
theorem open_no_types (msg_id : String) :
    ∀ payloads st e, e ∈ (emitFold (process_payload msg_id) st payloads).2 →
      isType "response.output_text.done" e = false ∧
      isType "response.content_part.done" e = false ∧
      isType "response.content_part.added" e = false ∧
      isType "response.output_item.done" e = false :=
  open_events_P msg_id _
    (fun c s => by refine ⟨?_, ?_, ?_, ?_⟩ <;> simp [isType])
    (fun i c n k s => by refine ⟨?_, ?_, ?_, ?_⟩ <;> simp [isType])
    (fun i a k s => by refine ⟨?_, ?_, ?_, ?_⟩ <;> simp [isType])

/-- The `Draining` phase when the call accumulated no text, with exactly one
tool call (responses.rs lines 600-640 skip `output_text.done`, lines 628-640
emit the empty `content_part.done`, lines 643-667 skip the message item). -/
theorem drain_C7 (req : TranslatedRequest) (msg_id : String) (now : Int)
    (st : StreamSt) (idx : Nat) (acc : ToolCallAcc)
    (hst : st.full_text = "") (hstarted : st.text_content_started = true)
    (htc : st.tool_calls = [(idx, acc)]) :
    drain_events req msg_id now st =
      [content_part_done_event msg_id "" (st.seq + 1)] ++
      (drain_tool_calls (st.seq + 1) [(idx, acc)]).2.1 ++
      [terminal_event
        (if (if st.finish_reason = "length" then "incomplete" else "completed") =
            "incomplete" then "response.incomplete" else "response.completed")
        (final_response_json req
          (if st.finish_reason = "length" then "incomplete" else "completed")
          (if st.finish_reason = "length" then
            Json.obj [("reason", Json.str "max_output_tokens")] else Json.null)
          [function_call_item acc]
          (usage_json st.input_tokens st.output_tokens st.total_tokens) now)
        ((drain_tool_calls (st.seq + 1) [(idx, acc)]).1 + 1)] := by
  simp [drain_events, hst, hstarted, htc, drain_tcs_items]

/-- C7: when upstream produced no text and exactly one tool call, the
stream has no `output_text.done`, exactly one `content_part.done` and it
carries empty text, and the terminal response's output holds only the
function-call item (no message item). -/
theorem claim_C7 (req : TranslatedRequest) (msg_id : String) (now : Int)
    (payloads : List Json) (idx : Nat) (acc : ToolCallAcc)
    (hst : (emitFold (process_payload msg_id) (start_events req msg_id now).1
      payloads).1.full_text = "")
    (htc : (emitFold (process_payload msg_id) (start_events req msg_id now).1
      payloads).1.tool_calls = [(idx, acc)]) :
    (stream_response req msg_id now payloads).countP
        (isType "response.output_text.done") = 0 ∧
    (stream_response req msg_id now payloads).filter
        (isType "response.content_part.done") =
      [content_part_done_event msg_id ""
        ((emitFold (process_payload msg_id) (start_events req msg_id now).1
          payloads).1.seq + 1)] ∧
    terminalOutput (stream_response req msg_id now payloads) =
      [function_call_item acc] := by
  have hstarted := open_started req msg_id now payloads
  have hopen := open_no_types msg_id payloads (start_events req msg_id now).1
  have hdrain := drain_C7 req msg_id now
    (emitFold (process_payload msg_id) (start_events req msg_id now).1 payloads).1
    idx acc hst hstarted htc
  have hstream : stream_response req msg_id now payloads =
      ((start_events req msg_id now).2 ++
        (emitFold (process_payload msg_id) (start_events req msg_id now).1
          payloads).2) ++
      drain_events req msg_id now
        (emitFold (process_payload msg_id) (start_events req msg_id now).1
          payloads).1 := rfl
  have hdtcP : ∀ e ∈ (drain_tool_calls
      ((emitFold (process_payload msg_id) (start_events req msg_id now).1
        payloads).1.seq + 1) [(idx, acc)]).2.1,
      isType "response.output_text.done" e = false ∧
      isType "response.content_part.done" e = false :=
    fun e he => drain_tc_events_P
      (fun ev => isType "response.output_text.done" ev = false ∧
        isType "response.content_part.done" ev = false)
      (fun i c n k s => ⟨by simp [isType], by simp [isType]⟩)
      (fun i n a k s => ⟨by simp [isType], by simp [isType]⟩)
      (fun k it s => ⟨by simp [isType], by simp [isType]⟩) _ _ _ he
  have hpreT : ∀ e ∈ (start_events req msg_id now).2 ++
      (emitFold (process_payload msg_id) (start_events req msg_id now).1
        payloads).2,
      isType "response.output_text.done" e = false ∧
      isType "response.content_part.done" e = false := by
    intro e he
    rcases List.mem_append.mp he with hsx | ho
    · simp only [start_events, List.mem_cons, List.not_mem_nil, or_false] at hsx
      rcases hsx with rfl | rfl | rfl | rfl <;>
        exact ⟨by simp [isType], by simp [isType]⟩
    · exact ⟨(hopen e ho).1, (hopen e ho).2.1⟩
  refine ⟨?_, ?_, ?_⟩
  · refine countP_zero_of_not (fun e he => ?_)
    rw [hstream, hdrain] at he
    rcases List.mem_append.mp he with hpre | hdr
    · exact (hpreT e hpre).1
    · rcases List.mem_append.mp hdr with hcd | ht
      · rcases List.mem_append.mp hcd with hc | hdt
        · rcases List.mem_cons.mp hc with rfl | hc0
          · simp [isType]
          · cases hc0
        · exact (hdtcP e hdt).1
      · rcases List.mem_cons.mp ht with rfl | ht0
        · by_cases hF : (emitFold (process_payload msg_id)
              (start_events req msg_id now).1 payloads).1.finish_reason =
              "length" <;> simp [hF, isType]
        · cases ht0
  · rw [hstream, hdrain]
    have hpreF : ((start_events req msg_id now).2 ++
        (emitFold (process_payload msg_id) (start_events req msg_id now).1
          payloads).2).filter (isType "response.content_part.done") = [] :=
      List.filter_eq_nil_iff.mpr (fun e he => by simp [(hpreT e he).2])
    have hdtcF : ((drain_tool_calls
        ((emitFold (process_payload msg_id) (start_events req msg_id now).1
          payloads).1.seq + 1) [(idx, acc)]).2.1).filter
          (isType "response.content_part.done") = [] :=
      List.filter_eq_nil_iff.mpr (fun e he => by simp [(hdtcP e he).2])
    rw [List.filter_append, hpreF, List.nil_append, List.filter_append,
      List.filter_append, hdtcF]
    by_cases hF : (emitFold (process_payload msg_id)
        (start_events req msg_id now).1 payloads).1.finish_reason = "length" <;>
      simp [hF, isType]
  · rw [stream_terminalOutput, drain_terminalOutput, hst, htc]
    simp

/-- The `Draining` phase when the call accumulated no text and no tool
calls: no `output_text.done`, no `content_part.done`, but the message item
with empty text is still finalized. -/
theorem drain_C9 (req : TranslatedRequest) (msg_id : String) (now : Int)
    (st : StreamSt)
    (hst : st.full_text = "") (hstarted : st.text_content_started = true)
    (htc : st.tool_calls = []) :
    drain_events req msg_id now st =
      [output_item_done_event 0
        (message_item msg_id
          (if st.finish_reason = "length" then "incomplete" else "completed") "")
        (st.seq + 1)] ++
      [terminal_event
        (if (if st.finish_reason = "length" then "incomplete" else "completed") =
            "incomplete" then "response.incomplete" else "response.completed")
        (final_response_json req
          (if st.finish_reason = "length" then "incomplete" else "completed")
          (if st.finish_reason = "length" then
            Json.obj [("reason", Json.str "max_output_tokens")] else Json.null)
          [message_item msg_id
            (if st.finish_reason = "length" then "incomplete" else "completed") ""]
          (usage_json st.input_tokens st.output_tokens st.total_tokens) now)
        (st.seq + 1 + 1)] := by
  simp [drain_events, hst, hstarted, htc, drain_tool_calls]

/-- C9: when upstream produced no text and no tool calls, the stream has no
`output_text.done` and no `content_part.done` (though `content_part.added`
was emitted at start), still emits the `output_item.done` for the message
item with empty text, and the terminal output is exactly that message
item. -/
theorem claim_C9 (req : TranslatedRequest) (msg_id : String) (now : Int)
    (payloads : List Json)
    (hst : (emitFold (process_payload msg_id) (start_events req msg_id now).1
      payloads).1.full_text = "")
    (htc : (emitFold (process_payload msg_id) (start_events req msg_id now).1
      payloads).1.tool_calls = []) :
    (stream_response req msg_id now payloads).countP
        (isType "response.output_text.done") = 0 ∧
    (stream_response req msg_id now payloads).countP
        (isType "response.content_part.done") = 0 ∧
    (stream_response req msg_id now payloads).countP
        (isType "response.content_part.added") = 1 ∧
    (stream_response req msg_id now payloads).filter
        (isType "response.output_item.done") =
      [output_item_done_event 0
        (message_item msg_id
          (if (emitFold (process_payload msg_id) (start_events req msg_id now).1
              payloads).1.finish_reason = "length" then "incomplete"
           else "completed") "")
        ((emitFold (process_payload msg_id) (start_events req msg_id now).1
          payloads).1.seq + 1)] ∧
    terminalOutput (stream_response req msg_id now payloads) =
      [message_item msg_id
        (if (emitFold (process_payload msg_id) (start_events req msg_id now).1
            payloads).1.finish_reason = "length" then "incomplete"
         else "completed") ""] := by
  have hstarted := open_started req msg_id now payloads
  have hopen := open_no_types msg_id payloads (start_events req msg_id now).1
  have hdrain := drain_C9 req msg_id now
    (emitFold (process_payload msg_id) (start_events req msg_id now).1 payloads).1
    hst hstarted htc
  have hstream : stream_response req msg_id now payloads =
      ((start_events req msg_id now).2 ++
        (emitFold (process_payload msg_id) (start_events req msg_id now).1
          payloads).2) ++
      drain_events req msg_id now
        (emitFold (process_payload msg_id) (start_events req msg_id now).1
          payloads).1 := rfl
  refine ⟨?_, ?_, ?_, ?_, ?_⟩
  · refine countP_zero_of_not (fun e he => ?_)
    rw [hstream, hdrain] at he
    rcases List.mem_append.mp he with hpre | hdr
    · rcases List.mem_append.mp hpre with hsx | ho
      · simp only [start_events, List.mem_cons, List.not_mem_nil, or_false] at hsx
        rcases hsx with rfl | rfl | rfl | rfl <;> simp [isType]
      · exact (hopen e ho).1
    · rcases List.mem_append.mp hdr with hi | ht
      · rcases List.mem_cons.mp hi with rfl | hi0
        · simp [isType]
        · cases hi0
      · rcases List.mem_cons.mp ht with rfl | ht0
        · by_cases hF : (emitFold (process_payload msg_id)
              (start_events req msg_id now).1 payloads).1.finish_reason =
              "length" <;> simp [hF, isType]
        · cases ht0
  · refine countP_zero_of_not (fun e he => ?_)
    rw [hstream, hdrain] at he
    rcases List.mem_append.mp he with hpre | hdr
    · rcases List.mem_append.mp hpre with hsx | ho
      · simp only [start_events, List.mem_cons, List.not_mem_nil, or_false] at hsx
        rcases hsx with rfl | rfl | rfl | rfl <;> simp [isType]
      · exact (hopen e ho).2.1
    · rcases List.mem_append.mp hdr with hi | ht
      · rcases List.mem_cons.mp hi with rfl | hi0
        · simp [isType]
        · cases hi0
      · rcases List.mem_cons.mp ht with rfl | ht0
        · by_cases hF : (emitFold (process_payload msg_id)
              (start_events req msg_id now).1 payloads).1.finish_reason =
              "length" <;> simp [hF, isType]
        · cases ht0
  · rw [hstream, hdrain, List.countP_append]
    have hS : ((start_events req msg_id now).2 ++
        (emitFold (process_payload msg_id) (start_events req msg_id now).1
          payloads).2).countP (isType "response.content_part.added") = 1 := by
      rw [List.countP_append]
      have hO : ((emitFold (process_payload msg_id)
          (start_events req msg_id now).1 payloads).2).countP
          (isType "response.content_part.added") = 0 :=
        countP_zero_of_not (fun e he => (hopen e he).2.2.1)
      rw [hO]
      simp [start_events, List.countP_cons, isType]
    rw [hS]
    have hD : ([output_item_done_event 0
        (message_item msg_id
          (if (emitFold (process_payload msg_id) (start_events req msg_id now).1
              payloads).1.finish_reason = "length" then "incomplete"
           else "completed") "")
        ((emitFold (process_payload msg_id) (start_events req msg_id now).1
          payloads).1.seq + 1)] ++
      [terminal_event
        (if (if (emitFold (process_payload msg_id)
              (start_events req msg_id now).1 payloads).1.finish_reason =
              "length" then "incomplete" else "completed") =
            "incomplete" then "response.incomplete" else "response.completed")
        (final_response_json req
          (if (emitFold (process_payload msg_id) (start_events req msg_id now).1
              payloads).1.finish_reason = "length" then "incomplete"
           else "completed")
          (if (emitFold (process_payload msg_id) (start_events req msg_id now).1
              payloads).1.finish_reason = "length" then
            Json.obj [("reason", Json.str "max_output_tokens")] else Json.null)
          [message_item msg_id
            (if (emitFold (process_payload msg_id)
                (start_events req msg_id now).1 payloads).1.finish_reason =
                "length" then "incomplete" else "completed") ""]
          (usage_json
            (emitFold (process_payload msg_id) (start_events req msg_id now).1
              payloads).1.input_tokens
            (emitFold (process_payload msg_id) (start_events req msg_id now).1
              payloads).1.output_tokens
            (emitFold (process_payload msg_id) (start_events req msg_id now).1
              payloads).1.total_tokens) now)
        ((emitFold (process_payload msg_id) (start_events req msg_id now).1
          payloads).1.seq + 1 + 1)]).countP
        (isType "response.content_part.added") = 0 := by
      by_cases hF : (emitFold (process_payload msg_id)
          (start_events req msg_id now).1 payloads).1.finish_reason =
          "length" <;> simp [hF, isType, List.countP_cons]
    rw [hD]
  · rw [hstream, hdrain]
    have hpreF : ((start_events req msg_id now).2 ++
        (emitFold (process_payload msg_id) (start_events req msg_id now).1
          payloads).2).filter (isType "response.output_item.done") = [] := by
      refine List.filter_eq_nil_iff.mpr (fun e he => ?_)
      rcases List.mem_append.mp he with hsx | ho
      · simp only [start_events, List.mem_cons, List.not_mem_nil, or_false] at hsx
        rcases hsx with rfl | rfl | rfl | rfl <;> simp [isType]
      · simp [(hopen e ho).2.2.2]
    rw [List.filter_append, hpreF, List.nil_append, List.filter_append]
    by_cases hF : (emitFold (process_payload msg_id)
        (start_events req msg_id now).1 payloads).1.finish_reason = "length" <;>
      simp [hF, isType]
  · rw [stream_terminalOutput, drain_terminalOutput, hst, htc]
    simp

@[simp] theorem frj_usage (req : TranslatedRequest) (stt : String) (icd : Json)
    (out : List Json) (u : Json) (n : Int) :
    (final_response_json req stt icd out u n).getField "usage" = some u := rfl

theorem tr_usage_field (cc : Json) (req : TranslatedRequest) (created : Int)
    (ctr : Nat) :
    (translate_response cc req created ctr).getField "usage" =
      some (translate_usage cc) := rfl

theorem frj_tr_keys (req : TranslatedRequest) (stt : String) (icd : Json)
    (out : List Json) (u : Json) (n : Int) (cc : Json)
    (req₂ : TranslatedRequest) (created : Int) (ctr : Nat) :
    Json.keys (final_response_json req stt icd out u n) =
      Json.keys (translate_response cc req₂ created ctr) := rfl

/-- The response object of the drain phase's terminal event. -/
theorem drain_terminal_resp (req : TranslatedRequest) (msg_id : String)
    (now : Int) (st : StreamSt) :
    terminalResponse (drain_events req msg_id now st) =
      some (final_response_json req
        (if st.finish_reason = "length" then "incomplete" else "completed")
        (if st.finish_reason = "length" then
          Json.obj [("reason", Json.str "max_output_tokens")] else Json.null)
        ((if st.full_text ≠ "" ∨ st.tool_calls = [] then
            [message_item msg_id
              (if st.finish_reason = "length" then "incomplete" else "completed")
              st.full_text]
          else []) ++ st.tool_calls.map (fun ia => function_call_item ia.2))
        (usage_json st.input_tokens st.output_tokens st.total_tokens) now) := by
  simp only [drain_events, terminalResponse, List.getLast?_concat]
  simp only [respOf_terminal, Option.bind_some, Option.some_bind]
  rw [drain_tcs_items]
  by_cases hc : st.full_text ≠ "" ∨ st.tool_calls = [] <;> simp [hc]

theorem stream_terminal_resp (req : TranslatedRequest) (msg_id : String)
    (now : Int) (payloads : List Json) :
    terminalResponse (stream_response req msg_id now payloads) =
      terminalResponse (drain_events req msg_id now
        (emitFold (process_payload msg_id) (start_events req msg_id now).1
          payloads).1) := by
  simp only [stream_response, terminalResponse]
  rw [List.getLast?_append_of_ne_nil _ (drain_events_ne_nil _ _ _ _)]

def sampleReq : TranslatedRequest :=
  { cc_body := Json.null
    resp_id := "resp_1"
    model := "m"
    tools_echo := Json.arr []
    instructions := Json.null
    temperature := Json.num 1
    top_p := Json.num 1
    tool_choice := Json.str "auto"
    parallel_tool_calls := Json.bool true
    is_stream := true }

def ccRespC3 : Json :=
  Json.obj
    [("choices", Json.arr
      [Json.obj
        [("message", Json.obj
          [("content", Json.str "hi"),
           ("tool_calls", Json.arr
             [Json.obj
               [("id", Json.str "call1"),
                ("function", Json.obj
                  [("name", Json.str "fn"),
                   ("arguments", Json.str "a")])]])]),
         ("finish_reason", Json.str "stop")]])]

def payloadsC3 : List Json :=
  [Json.obj
    [("choices", Json.arr
      [Json.obj
        [("delta", Json.obj
          [("content", Json.str "hi"),
           ("tool_calls", Json.arr
             [Json.obj
               [("index", Json.num 0),
                ("id", Json.str "call1"),
                ("function", Json.obj
                  [("name", Json.str "fn"),
                   ("arguments", Json.str "a")])]])]),
         ("finish_reason", Json.str "stop")]])]]

/-- C3 counterexample: upstream content with text "hi" plus one tool call
and no usage object.  The streaming terminal response reports a zeroed
usage object where the non-stream translator reports `null`, and it orders
the message item before the function-call item where the non-stream
translator emits the function-call item first. -/
theorem claim_C3_counterexample :
    ((terminalResponse (stream_response sampleReq "msg_1" 5 payloadsC3)).bind
        (fun r => r.getField "usage")) = some (usage_json 0 0 0) ∧
    (translate_response ccRespC3 sampleReq 5 0).getField "usage" =
      some Json.null ∧
    usage_json 0 0 0 ≠ Json.null ∧
    ((terminalResponse (stream_response sampleReq "msg_1" 5 payloadsC3)).bind
        (fun r => r.getField "output")).map
        (fun o => ((Json.asArr o).getD []).map typeOf) =
      some [some "message", some "function_call"] ∧
    ((translate_response ccRespC3 sampleReq 5 0).getField "output").map
        (fun o => ((Json.asArr o).getD []).map typeOf) =
      some [some "function_call", some "message"] :=
  ⟨rfl, rfl, fun h => Json.noConfusion h, rfl, rfl⟩

/-- C3 (amended): the streaming terminal response object carries exactly
the same top-level keys, in the same order, as the non-stream translator's
response object; but its `usage` field is always the token-counter object
(zeros when upstream never reported usage), whereas the non-stream
translator's `usage` is `null` when upstream reported none; and its output
list places the message item (when present) before all function-call
items, whereas the non-stream translator emits each choice's function-call
items before its message item. -/
theorem claim_C3_amended (req : TranslatedRequest) (msg_id : String)
    (now created : Int) (payloads : List Json) (cc : Json) (ctr : Nat) :
    (cc.getField "usage" = none →
      (translate_response cc req created ctr).getField "usage" =
        some Json.null) ∧
    ∃ r, terminalResponse (stream_response req msg_id now payloads) = some r ∧
      Json.keys r = Json.keys (translate_response cc req created ctr) ∧
      r.getField "usage" = some (usage_json
        (emitFold (process_payload msg_id) (start_events req msg_id now).1
          payloads).1.input_tokens
        (emitFold (process_payload msg_id) (start_events req msg_id now).1
          payloads).1.output_tokens
        (emitFold (process_payload msg_id) (start_events req msg_id now).1
          payloads).1.total_tokens) ∧
      r.getField "output" = some (Json.arr
        ((if (emitFold (process_payload msg_id) (start_events req msg_id now).1
              payloads).1.full_text ≠ "" ∨
            (emitFold (process_payload msg_id) (start_events req msg_id now).1
              payloads).1.tool_calls = [] then
            [message_item msg_id
              (if (emitFold (process_payload msg_id)
                  (start_events req msg_id now).1 payloads).1.finish_reason =
                  "length" then "incomplete" else "completed")
              (emitFold (process_payload msg_id) (start_events req msg_id now).1
                payloads).1.full_text]
          else []) ++
          (emitFold (process_payload msg_id) (start_events req msg_id now).1
            payloads).1.tool_calls.map (fun ia => function_call_item ia.2))) := by
  refine ⟨fun hu => ?_, ?_⟩
  · rw [tr_usage_field]
    simp only [translate_usage, hu]
  · exact ⟨_, (stream_terminal_resp req msg_id now payloads).trans
      (drain_terminal_resp req msg_id now _), rfl, rfl, rfl⟩

theorem drainBlocks_none {buf : List Char} (h : splitFirstSep buf = none) :
    drainBlocks buf = ([], buf) := by
  rw [drainBlocks]
  split
  · rfl
  · rename_i heq
    rw [h] at heq
    cases heq

theorem drainBlocks_some {buf block rest : List Char}
    (h : splitFirstSep buf = some (block, rest)) :
    drainBlocks buf = (block :: (drainBlocks rest).1, (drainBlocks rest).2) := by
  rw [drainBlocks]
  split
  · rename_i heq
    rw [h] at heq
    cases heq
  · rename_i b r heq
    rw [h] at heq
    injection heq with heq
    injection heq with h1 h2
    subst h1
    subst h2
    rfl

theorem splitFirstSep_append_some {x y block rest : List Char}
    (h : splitFirstSep x = some (block, rest)) :
    splitFirstSep (x ++ y) = some (block, rest ++ y) := by
  induction x generalizing block rest with
  | nil => simp [splitFirstSep] at h
  | cons c cs ih =>
      rw [splitFirstSep] at h
      rw [List.cons_append, splitFirstSep]
      split at h
      · rename_i hc
        obtain ⟨h1, h2⟩ := hc
        cases cs with
        | nil => exact absurd h2 (by simp)
        | cons a r =>
            simp at h2
            simp only [Option.map_some, Option.map_some', Option.some.injEq] at h
            obtain ⟨hb, hr⟩ := (Prod.mk.injEq _ _ _ _).mp h
            subst hb
            subst hr
            rw [if_pos ⟨h1, by simpa using h2⟩]
            simp
      · rename_i hc
        rcases hs : splitFirstSep cs with _ | ⟨b₀, r₀⟩ <;> rw [hs] at h
        · cases h
        · simp only [Option.map_some, Option.map_some', Option.some.injEq] at h
          obtain ⟨hb, hr⟩ := (Prod.mk.injEq _ _ _ _).mp h
          subst hb
          subst hr
          have hcond : ¬(c = '\n' ∧ (cs ++ y).head? = some '\n') := by
            intro hcy
            cases cs with
            | nil => simp [splitFirstSep] at hs
            | cons a r =>
                exact hc ⟨hcy.1, by simpa using hcy.2⟩
          rw [if_neg hcond, ih hs]
          rfl

theorem drainBlocks_append_bounded :
    ∀ (n : Nat) (x y : List Char), x.length ≤ n →
      drainBlocks (x ++ y) =
        ((drainBlocks x).1 ++ (drainBlocks ((drainBlocks x).2 ++ y)).1,
         (drainBlocks ((drainBlocks x).2 ++ y)).2) := by
  intro n
  induction n with
  | zero =>
      intro x y hlen
      have hx : x = [] := List.length_eq_zero.mp (Nat.le_zero.mp hlen)
      subst hx
      rw [drainBlocks_none (show splitFirstSep [] = none from rfl)]
      simp
  | succ n ih =>
      intro x y hlen
      rcases h : splitFirstSep x with _ | ⟨b, r⟩
      · rw [drainBlocks_none h]
        simp
      · have hxy := splitFirstSep_append_some (y := y) h
        rw [drainBlocks_some h, drainBlocks_some hxy]
        have hr : r.length ≤ n := by
          have := splitFirstSep_length h
          omega
        rw [ih r y hr]
        rfl

/-- `drainBlocks` resumes: draining `x ++ y` is draining `x`, then draining
its leftover with `y` appended. -/
theorem drainBlocks_append (x y : List Char) :
    drainBlocks (x ++ y) =
      ((drainBlocks x).1 ++ (drainBlocks ((drainBlocks x).2 ++ y)).1,
       (drainBlocks ((drainBlocks x).2 ++ y)).2) :=
  drainBlocks_append_bounded x.length x y (Nat.le_refl _)

theorem drainBlocks_leftover_bounded :
    ∀ (n : Nat) (x : List Char), x.length ≤ n →
      splitFirstSep (drainBlocks x).2 = none := by
  intro n
  induction n with
  | zero =>
      intro x hlen
      have hx : x = [] := List.length_eq_zero.mp (Nat.le_zero.mp hlen)
      subst hx
      rw [drainBlocks_none (show splitFirstSep [] = none from rfl)]
      rfl
  | succ n ih =>
      intro x hlen
      rcases h : splitFirstSep x with _ | ⟨b, r⟩
      · rw [drainBlocks_none h]
        exact h
      · rw [drainBlocks_some h]
        have hr : r.length ≤ n := by
          have := splitFirstSep_length h
          omega
        exact ih r hr

/-- The drained leftover never contains a block separator. -/
theorem drainBlocks_leftover (x : List Char) :
    splitFirstSep (drainBlocks x).2 = none :=
  drainBlocks_leftover_bounded x.length x (Nat.le_refl _)

/-- The chunk loop equals one drain of the concatenated stream: leftover
buffer content is retained across chunk boundaries until its terminating
blank line arrives. -/
theorem sse_ingest_eq (chunks : List (List Char)) :
    ∀ buf, splitFirstSep buf = none →
      sse_ingest buf chunks = drainBlocks (buf ++ chunks.flatten) := by
  induction chunks with
  | nil =>
      intro buf hb
      rw [sse_ingest, show List.flatten ([] : List (List Char)) = [] from rfl,
        List.append_nil, drainBlocks_none hb]
  | cons c rest ih =>
      intro buf hb
      rw [sse_ingest]
      have hq := ih (drainBlocks (buf ++ c)).2 (drainBlocks_leftover _)
      rw [hq, show (c :: rest).flatten = c ++ rest.flatten from rfl,
        ← List.append_assoc, drainBlocks_append (buf ++ c) rest.flatten]

theorem leadsWith_drop :
    ∀ (p l : List Char), leadsWith p l = true → l = p ++ l.drop p.length := by
  intro p
  induction p with
  | nil => intro l _; rfl
  | cons a ps ih =>
      intro l h
      cases l with
      | nil => simp [leadsWith] at h
      | cons c cs =>
          simp only [leadsWith, Bool.and_eq_true, beq_iff_eq] at h
          obtain ⟨rfl, h2⟩ := h
          simpa using ih cs h2

/-- What `line_payload` accepts: the trimmed line is `"data: "` followed by
the payload, and the payload is not the `"[DONE]"` terminator. -/
theorem line_payload_spec {line p : List Char}
    (h : line_payload line = some p) :
    rustTrim line = "data: ".toList ++ p ∧ p ≠ "[DONE]".toList := by
  simp only [line_payload] at h
  split at h
  · rename_i hlead
    split at h
    · cases h
    · rename_i hdone
      injection h with h
      subst h
      exact ⟨leadsWith_drop _ _ hlead, hdone⟩
  · cases h

/-- C8 counterexample: the chunk `" data: x\n\n"` (note the leading space)
yields the payload `"x"`, though its line does not begin with the prefix
`"data: "` — the code trims the line before testing the prefix. -/
theorem claim_C8_counterexample :
    sse_payloads [(" data: x").toList ++ ['\n', '\n']] = [['x']] ∧
    leadsWith ("data: ".toList) ((" data: x").toList) = false := by
  constructor
  · rw [sse_payloads, sse_ingest_eq _ [] rfl, List.nil_append]
    rw [show List.flatten [(" data: x").toList ++ ['\n', '\n']] =
      (" data: x").toList ++ ['\n', '\n'] from rfl]
    rw [drainBlocks_some (show splitFirstSep ((" data: x").toList ++ ['\n', '\n']) =
      some ((" data: x").toList, ([] : List Char)) from rfl)]
    rw [drainBlocks_none (show splitFirstSep ([] : List Char) = none from rfl)]
    rfl
  · rfl

/-- C8 (amended): every payload of the SSE frame parser comes from a line
whose TRIMMED text begins with `"data: "` (the code trims each line before
testing the prefix, so padded lines also produce payloads), the `"[DONE]"`
terminator is discarded, unparseable payloads are silently skipped with no
state change and no event, and leftover buffer content is carried across
chunk boundaries: any re-chunking of the same byte stream yields the same
payloads and the same emitted events. -/
theorem claim_C8_amended (chunks : List (List Char)) :
    (∀ p ∈ sse_payloads chunks, p ≠ "[DONE]".toList ∧
      ∃ block ∈ (sse_ingest [] chunks).1, ∃ line ∈ rustLines block,
        rustTrim line = "data: ".toList ++ p) ∧
    (∀ (parse : List Char → Option Json) (msg_id : String) (st : StreamSt)
        (p : List Char), parse p = none →
      process_payload_text parse msg_id st p = (st, [])) ∧
    sse_payloads chunks = sse_payloads [chunks.flatten] ∧
    ∀ (parse : List Char → Option Json) (req : TranslatedRequest)
        (msg_id : String) (now : Int),
      stream_response_chunks parse req msg_id now chunks =
        stream_response_chunks parse req msg_id now [chunks.flatten] := by
  have hinv : sse_payloads chunks = sse_payloads [chunks.flatten] := by
    rw [sse_payloads, sse_payloads, sse_ingest_eq _ [] rfl,
      sse_ingest_eq _ [] rfl, List.nil_append, List.nil_append,
      show List.flatten [chunks.flatten] = chunks.flatten from
        by simp]
  refine ⟨?_, ?_, hinv, ?_⟩
  · intro p hp
    rw [sse_payloads] at hp
    obtain ⟨block, hblock, hpb⟩ := List.mem_flatMap.mp hp
    rw [block_payloads] at hpb
    obtain ⟨line, hline, hlp⟩ := List.mem_filterMap.mp hpb
    obtain ⟨ht, hd⟩ := line_payload_spec hlp
    exact ⟨hd, block, hblock, line, hline, ht⟩
  · intro parse msg_id st p hp
    simp [process_payload_text, hp]
  · intro parse req msg_id now
    rw [stream_response_chunks, stream_response_chunks, hinv]

def samplePayloads : List Json :=
  [Json.obj
    [("choices", Json.arr
      [Json.obj
        [("delta", Json.obj
          [("tool_calls", Json.arr
            [Json.obj
              [("index", Json.num 0),
               ("id", Json.str "call1"),
               ("function", Json.obj
                 [("name", Json.str "fn"),
                  ("arguments", Json.str "xy")])]])])]])],
   Json.obj
    [("choices", Json.arr
      [Json.obj
        [("delta", Json.obj
          [("tool_calls", Json.arr
            [Json.obj
              [("index", Json.num 0),
               ("function", Json.obj
                 [("arguments", Json.str "z")])]])])]])]]

theorem claim_C2_witness :
    (fc_args_done_event "fc_0" "fn" "xyz" 1 9).getField "arguments" =
      some (Json.str (deltaConcatAt 1
        (stream_response sampleReq "msg_1" 5 samplePayloads))) ∧
    ∃ item ∈ terminalOutput (stream_response sampleReq "msg_1" 5 samplePayloads),
      item.getField "id" = (fc_args_done_event "fc_0" "fn" "xyz" 1 9).getField "item_id" ∧
      item.getField "arguments" =
        some (Json.str (deltaConcatAt 1
          (stream_response sampleReq "msg_1" 5 samplePayloads))) := by
  have hmem : fc_args_done_event "fc_0" "fn" "xyz" 1 9 ∈
      stream_response sampleReq "msg_1" 5 samplePayloads := by
    have h : (stream_response sampleReq "msg_1" 5 samplePayloads).get
        ⟨8, by decide⟩ = fc_args_done_event "fc_0" "fn" "xyz" 1 9 := rfl
    rw [← h]
    exact List.get_mem _ _ _
  exact claim_C2 sampleReq "msg_1" 5 samplePayloads 0 _ hmem rfl

theorem claim_C7_witness :
    (stream_response sampleReq "msg_1" 5 samplePayloads).countP
        (isType "response.output_text.done") = 0 ∧
    (stream_response sampleReq "msg_1" 5 samplePayloads).filter
        (isType "response.content_part.done") =
      [content_part_done_event "msg_1" "" 8] ∧
    terminalOutput (stream_response sampleReq "msg_1" 5 samplePayloads) =
      [function_call_item ⟨"call1", "fc_0", "fn", "xyz", true⟩] :=
  claim_C7 sampleReq "msg_1" 5 samplePayloads 0
    ⟨"call1", "fc_0", "fn", "xyz", true⟩ rfl rfl

theorem claim_C9_witness :
    (stream_response sampleReq "msg_1" 5 []).countP
        (isType "response.output_text.done") = 0 ∧
    (stream_response sampleReq "msg_1" 5 []).countP
        (isType "response.content_part.done") = 0 ∧
    (stream_response sampleReq "msg_1" 5 []).countP
        (isType "response.content_part.added") = 1 ∧
    (stream_response sampleReq "msg_1" 5 []).filter
        (isType "response.output_item.done") =
      [output_item_done_event 0 (message_item "msg_1" "completed" "") 5] ∧
    terminalOutput (stream_response sampleReq "msg_1" 5 []) =
      [message_item "msg_1" "completed" ""] :=
  claim_C9 sampleReq "msg_1" 5 [] rfl rfl
